import Mathlib

/-!
LMS progress-and-completion engine

A shallow embedding of `backend/models/Progress.js`, `backend/models/Certificate.js`,
`backend/models/Quiz.js`, `backend/controllers/progress.js`, of the handlers `submitQuiz` of
`backend/controllers/quizzes.js`, `enrollCourse` of `backend/controllers/courses.js` and `login`
of `backend/controllers/auth.js`, and of the lockout methods of `backend/models/User.js`.

Conventions of the embedding:

* Mongo collections are lists of documents; `findOne` returns the first matching document and
  `save` writes the document back in its place.
* `ObjectId`s are natural numbers; `a.toString() === b` on ids is equality of the numbers.
* `Date.now()` is a natural number handed to each call; every clock read of one call returns it.
* The numbers carried by request bodies (`timeSpent`, `score`) and `passingScore` are integers.
  The request value `completed` is a boolean or absent.
* `completedItems / totalItems * 100` is computed in IEEE 754 binary64 as JavaScript does: each of
  the two operations rounds its exact result to 53 significant bits, ties to even.
* `Model.create` appends the new document to its collection.
* `doc.save()` always succeeds; `Certificate.create` throws only when the `unique` index on
  `certificateId` refuses the insert. A thrown error is caught by the handler's `catch` block,
  which answers 500 and leaves what was saved before in place.
-/

namespace LMS

abbrev ObjectId := Nat

abbrev Timestamp := Nat

/-! ## JavaScript Number arithmetic used by `calculateProgress` -/

/-- The integer nearest to `p / q`, a tie going to the even neighbour. -/
def roundTiesToEven (p q : Nat) : Nat :=
  if 2 * (p % q) < q then p / q
  else if q < 2 * (p % q) then p / q + 1
  else if (p / q) % 2 = 0 then p / q
  else p / q + 1

/-- Auxiliary loop of `floorLog2`, structurally recursive on the fuel. -/
def floorLog2Aux : Nat → Nat → Nat
  | 0, _ => 0
  | fuel + 1, n => if n < 2 then 0 else floorLog2Aux fuel (n / 2) + 1

/-- The position of the leading bit of `n`: `2 ^ floorLog2 n ≤ n < 2 ^ (floorLog2 n + 1)` for
`0 < n`. -/
def floorLog2 (n : Nat) : Nat :=
  floorLog2Aux n n

/-- A finite non-negative binary64 value `mant / 2 ^ scale`. -/
structure Double where
  mant : Nat
  scale : Nat
deriving DecidableEq, Repr

/-- The binary64 value nearest to the exact quotient `p / q` (for `0 < q` and `p / q < 2 ^ 52`,
far from the subnormal range): the quotient is scaled so that its integer part has 53 bits and is
then rounded to the nearest integer, ties to even. -/
def Double.ofQuotient (p q : Nat) : Double :=
  if p = 0 then ⟨0, 0⟩
  else
    let s0 := 53 + floorLog2 q - floorLog2 p
    let s := if p * 2 ^ s0 / q < 2 ^ 53 then s0 else s0 - 1
    ⟨roundTiesToEven (p * 2 ^ s) q, s⟩

/-- JavaScript `a / b` on two array lengths (exact integers). -/
def Double.divNat (a b : Nat) : Double :=
  Double.ofQuotient a b

/-- JavaScript `x * k` for a binary64 `x` and an exact integer `k`. -/
def Double.mulNat (x : Double) (k : Nat) : Double :=
  Double.ofQuotient (x.mant * k) (2 ^ x.scale)

/-- JavaScript `Math.round`: the nearest integer, a tie going towards `+∞`. -/
def Math.round (x : Double) : Nat :=
  (2 * x.mant + 2 ^ x.scale) / 2 ^ (x.scale + 1)

/-- JavaScript `x === y` on two finite values: equality of the numbers they stand for. -/
def Double.eq (x y : Double) : Bool :=
  x.mant * 2 ^ y.scale == y.mant * 2 ^ x.scale

/-- A JavaScript Number that is not negative: a finite value, `Infinity` or `NaN`. -/
inductive Number where
  | finite (x : Double)
  | infinity
  | nan
deriving DecidableEq, Repr

/-- JavaScript `a / b` on two non-negative integers, a zero divisor included: `0 / 0` is `NaN`
and `a / 0` is `Infinity` for `0 < a`. -/
def Number.divNat (a b : Nat) : Number :=
  if b = 0 then (if a = 0 then Number.nan else Number.infinity)
  else Number.finite (Double.divNat a b)

/-- JavaScript `x * k` for a Number `x` and an integer `0 < k`. -/
def Number.mulNat : Number → Nat → Number
  | Number.finite x, k => Number.finite (x.mulNat k)
  | Number.infinity, _ => Number.infinity
  | Number.nan, _ => Number.nan

/-- JavaScript `x >= y` for a Number `x` and an integer `y`; every comparison with `NaN` is
false. -/
def Number.ge : Number → Int → Bool
  | Number.finite x, y => decide (y * 2 ^ x.scale ≤ (x.mant : Int))
  | Number.infinity, _ => true
  | Number.nan, _ => false

/-! ## Data model (`models/Progress.js`) -/

/-- An element of `ProgressSchema.lessons`. -/
structure LessonProgress where
  lesson : ObjectId
  completed : Bool
  completedAt : Option Timestamp
  timeSpent : Int
deriving DecidableEq, Repr

/-- An element of `ProgressSchema.quizzes`. -/
structure QuizProgress where
  quiz : ObjectId
  completed : Bool
  score : Int
  attempts : Nat
  lastAttemptAt : Option Timestamp
deriving DecidableEq, Repr

/-- An element of `ProgressSchema.assignments`. -/
structure AssignmentProgress where
  assignment : ObjectId
  submitted : Bool
  submissionUrl : Option String
  grade : Option Int
  feedback : Option String
  submittedAt : Option Timestamp
  gradedAt : Option Timestamp
deriving DecidableEq, Repr

/-- A document of the `Progress` collection. -/
structure Progress where
  user : ObjectId
  course : ObjectId
  lessons : List LessonProgress
  quizzes : List QuizProgress
  assignments : List AssignmentProgress
  overallProgress : Nat
  lastAccessedAt : Timestamp
deriving DecidableEq, Repr

/-- The number of entries counted as done: `completedLessons + completedQuizzes +
submittedAssignments` of `calculateProgress`. -/
def Progress.completedItems (p : Progress) : Nat :=
  (p.lessons.filter (fun lesson => lesson.completed)).length
    + (p.quizzes.filter (fun quiz => quiz.completed)).length
    + (p.assignments.filter (fun assignment => assignment.submitted)).length

/-- The number of entries: `totalItems` of `calculateProgress`. -/
def Progress.totalItems (p : Progress) : Nat :=
  p.lessons.length + p.quizzes.length + p.assignments.length

/-- The method `ProgressSchema.methods.calculateProgress`: the record after the call and the
returned number. -/
def Progress.calculateProgress (p : Progress) : Progress × Nat :=
  if p.totalItems = 0 then (p, 0)
  else
    let overallProgress := Math.round ((Double.divNat p.completedItems p.totalItems).mulNat 100)
    ({ p with overallProgress := overallProgress }, overallProgress)

/-! ## Other collections (`models/Certificate.js`, `models/User.js`, `models/Course.js`) -/

/-- A document of the `Certificate` collection. -/
structure Certificate where
  _id : ObjectId
  user : ObjectId
  course : ObjectId
  certificateId : String
  issueDate : Timestamp
  completionDate : Timestamp
deriving DecidableEq, Repr

/-- The fields of a `User` document used by the progress engine and by `login`: the
certificate ids, the course ids of `enrolledCourses`, and the account fields of `UserSchema`
with their schema defaults (`password` is the stored hash). -/
structure User where
  _id : ObjectId
  certificates : List ObjectId
  enrolledCourses : List ObjectId := []
  email : String := ""
  password : String := ""
  role : String := "student"
  isActive : Bool := true
  lastLogin : Option Timestamp := none
  loginAttempts : Nat := 0
  lockUntil : Option Timestamp := none
deriving DecidableEq, Repr

/-- An element of `CourseSchema.quizzes` (`QuizSchema`): its id and passing threshold. -/
structure CourseQuiz where
  _id : ObjectId
  passingScore : Int
deriving DecidableEq, Repr

/-- The fields of a `Course` document used by the progress engine: the ids of its lessons and
assignments, its quizzes, and the students of `enrollments`. -/
structure Course where
  _id : ObjectId
  instructor : ObjectId
  lessons : List ObjectId
  quizzes : List CourseQuiz
  assignments : List ObjectId
  enrollments : List ObjectId
deriving DecidableEq, Repr

/-- An element of `QuizSchema.questions` of `models/Quiz.js`: the index of the right option. -/
structure Question where
  correctAnswer : Int
deriving DecidableEq, Repr

/-- A document of the `Quiz` collection (`models/Quiz.js`). -/
structure Quiz where
  _id : ObjectId
  course : ObjectId
  questions : List Question
  passingScore : Int
deriving DecidableEq, Repr

/-- The database: one list of documents per collection. -/
structure Db where
  progresses : List Progress
  courses : List Course
  certificates : List Certificate
  users : List User
  quizzes : List Quiz := []
deriving DecidableEq, Repr

/-- What a call reads from its environment: the clock (`Date.now()`), the `_id` given to a
document it creates, and the eight bytes of `crypto.randomBytes(8)`. -/
structure Env where
  now : Timestamp
  newId : ObjectId
  randomBytes : Fin 8 → Fin 256

/-- The HTTP answer `res.status(status).json({ success, message, data })`. The message of a 500
answer is the text of the caught error and is not modelled. -/
structure Response where
  status : Nat
  success : Bool
  message : Option String
  data : Option Progress
deriving DecidableEq, Repr

/-! ## Array and collection primitives -/

/-- JavaScript `Array.prototype.findIndex`, `none` standing for `-1`. -/
def findIndex {α : Type} (f : α → Bool) : List α → Option Nat
  | [] => none
  | a :: as => if f a then some 0 else (findIndex f as).map (fun i => i + 1)

/-- In-place update `xs[i] = g xs[i]` of an array element. -/
def modifyAt {α : Type} (g : α → α) : Nat → List α → List α
  | _, [] => []
  | 0, a :: as => g a :: as
  | i + 1, a :: as => a :: modifyAt g i as

/-- The effect of `doc.save()` on a collection for a document obtained by `findOne(f)`: the
first document matching `f` is replaced by `doc`. -/
def replaceFirst {α : Type} (f : α → Bool) (doc : α) : List α → List α
  | [] => []
  | a :: as => if f a then doc :: as else a :: replaceFirst f doc as

/-- The query `Progress.findOne({ user, course })`. -/
def Db.findProgress (db : Db) (user course : ObjectId) : Option Progress :=
  db.progresses.find? (fun p => p.user == user && p.course == course)

/-- The effect of `progress.save()` for the document found by `findProgress`. -/
def Db.saveProgress (db : Db) (user course : ObjectId) (progress : Progress) : Db :=
  let saved := replaceFirst (fun p => p.user == user && p.course == course) progress db.progresses
  { db with progresses := saved }

/-- The query `Certificate.findOne({ user, course })`. -/
def Db.findCertificate (db : Db) (user course : ObjectId) : Option Certificate :=
  db.certificates.find? (fun c => c.user == user && c.course == course)

/-- The query `Course.findById(id)`. -/
def Db.findCourse (db : Db) (id : ObjectId) : Option Course :=
  db.courses.find? (fun c => c._id == id)

/-- The query `User.findById(id)`. -/
def Db.findUser (db : Db) (id : ObjectId) : Option User :=
  db.users.find? (fun u => u._id == id)

/-- Mongoose `course.quizzes.id(quizId)`: the first sub-document with that `_id`. -/
def Course.quizById (course : Course) (quizId : ObjectId) : Option CourseQuiz :=
  course.quizzes.find? (fun q => q._id == quizId)

/-! ## Certificate creation (`models/Certificate.js`) -/

/-- One hexadecimal digit as printed by `Buffer.toString("hex")`. -/
def hexDigit (n : Nat) : Char :=
  ("0123456789abcdef".toList)[n % 16]?.getD '0'

/-- The method `Buffer.toString("hex")`: two lower-case digits per byte. -/
def toStringHex (bytes : List (Fin 256)) : String :=
  String.mk (bytes.flatMap (fun b => [hexDigit (b.val / 16), hexDigit (b.val % 16)]))

/-- JavaScript `String.prototype.toUpperCase` on ASCII text. -/
def toUpperCase (s : String) : String :=
  String.mk (s.toList.map Char.toUpper)

/-- The `pre("save")` hook of `CertificateSchema`: a certificate without `certificateId` gets
`CERT-` followed by the upper-case hex of eight random bytes. The empty string stands for an
absent `certificateId`. -/
def Certificate.preSave (c : Certificate) (randomBytes : Fin 8 → Fin 256) : Certificate :=
  if c.certificateId = "" then
    let uniqueId := toUpperCase (toStringHex (List.ofFn randomBytes))
    { c with certificateId := "CERT-" ++ uniqueId }
  else c

/-- The call `Certificate.create({ user, course })`: the dates default to `Date.now`, the
`pre("save")` hook runs, and the insert is refused (`none`, the thrown duplicate-key error) when
the `unique` index on `certificateId` already holds that id. -/
def Db.createCertificate (db : Db) (env : Env) (user course : ObjectId) :
    Option (Db × Certificate) :=
  let certificate := Certificate.preSave
    { _id := env.newId, user := user, course := course, certificateId := "",
      issueDate := env.now, completionDate := env.now } env.randomBytes
  if db.certificates.any (fun c => c.certificateId == certificate.certificateId) then none
  else some ({ db with certificates := db.certificates ++ [certificate] }, certificate)

/-- The effect of `user.certificates.push(id); user.save()` for the user found by `findUser`. -/
def Db.pushUserCertificate (db : Db) (userId : ObjectId) (user : User) (id : ObjectId) : Db :=
  let user := { user with certificates := user.certificates ++ [id] }
  { db with users := replaceFirst (fun u => u._id == userId) user db.users }

/-! ## Controllers (`controllers/progress.js`) -/

/-- The answer `res.status(404).json({ success: false, message })`. -/
def Response.notFound (message : String) : Response :=
  { status := 404, success := false, message := some message, data := none }

/-- The answer `res.status(200).json({ success: true, data: progress })`. -/
def Response.ok (progress : Progress) : Response :=
  { status := 200, success := true, message := none, data := some progress }

/-- The answer of the `catch` block, `res.status(500).json({ success: false, message })`. -/
def Response.serverError : Response :=
  { status := 500, success := false, message := none, data := none }

/-- The request of `PUT /api/progress/:courseId/lessons/:lessonId`: `req.user.id`, the two route
parameters and the body fields `completed` and `timeSpent` (`none` when absent). -/
structure LessonRequest where
  user : ObjectId
  courseId : ObjectId
  lessonId : ObjectId
  completed : Option Bool
  timeSpent : Option Int
deriving DecidableEq, Repr

/-- The request of `POST /api/progress/:courseId/quizzes/:quizId`. The body field `answers` is
never read by the handler and is left out. -/
structure QuizRequest where
  user : ObjectId
  courseId : ObjectId
  quizId : ObjectId
  score : Int
deriving DecidableEq, Repr

/-- The request of `POST /api/progress/:courseId/assignments/:assignmentId`. -/
structure AssignmentRequest where
  user : ObjectId
  courseId : ObjectId
  assignmentId : ObjectId
  submissionUrl : Option String
deriving DecidableEq, Repr

/-- JavaScript truthiness of the body field `completed`. -/
def truthy (completed : Option Bool) : Bool :=
  completed.getD false

/-- Lines 100-105 of `updateLessonProgress` on the entry `progress.lessons[lessonIndex]`. -/
def LessonProgress.update (entry : LessonProgress) (completed : Option Bool)
    (timeSpent : Option Int) (now : Timestamp) : LessonProgress :=
  { entry with
    completed := truthy completed || entry.completed
    timeSpent := entry.timeSpent + timeSpent.getD 0
    completedAt :=
      if truthy completed && entry.completedAt.isNone then some now else entry.completedAt }

/-- Lines 115-138 of `updateLessonProgress`: the certificate is issued when every lesson and
every quiz is completed, the stored percentage is 100 and no certificate exists for the pair. The
second component tells whether the block ran without throwing. -/
def issueCertificate (db : Db) (env : Env) (user course : ObjectId) (progress : Progress) :
    Db × Bool :=
  let allLessonsCompleted := progress.lessons.all (fun lesson => lesson.completed)
  let allQuizzesCompleted := progress.quizzes.all (fun quiz => quiz.completed)
  if allLessonsCompleted && allQuizzesCompleted && progress.overallProgress == 100 then
    match db.findCertificate user course with
    | some _ => (db, true)
    | none =>
      match db.createCertificate env user course with
      | none => (db, false)
      | some (db1, certificate) =>
        match db1.findUser user with
        | none => (db1, false)
        | some u => (db1.pushUserCertificate user u certificate._id, true)
  else (db, true)

/-- The handler `updateLessonProgress`. -/
def updateLessonProgress (db : Db) (env : Env) (req : LessonRequest) : Db × Response :=
  match db.findProgress req.user req.courseId with
  | none => (db, Response.notFound "Progress not found")
  | some progress =>
    match findIndex (fun lesson => lesson.lesson == req.lessonId) progress.lessons with
    | none => (db, Response.notFound "Lesson not found in progress")
    | some lessonIndex =>
      let lessons := modifyAt
        (fun entry => entry.update req.completed req.timeSpent env.now) lessonIndex progress.lessons
      let progress := { progress with lessons := lessons, lastAccessedAt := env.now }
      let progress := progress.calculateProgress.1
      let db := db.saveProgress req.user req.courseId progress
      match issueCertificate db env req.user req.courseId progress with
      | (db, true) => (db, Response.ok progress)
      | (db, false) => (db, Response.serverError)

/-- Lines 193-200 of `submitQuiz` on the entry `progress.quizzes[quizIndex]`. -/
def QuizProgress.update (entry : QuizProgress) (score passingScore : Int) (now : Timestamp) :
    QuizProgress :=
  { entry with
    score := score
    attempts := entry.attempts + 1
    lastAttemptAt := some now
    completed := if score ≥ passingScore then true else entry.completed }

/-- The handler `submitQuiz` of `controllers/progress.js`. -/
def submitQuiz (db : Db) (env : Env) (req : QuizRequest) : Db × Response :=
  match db.findProgress req.user req.courseId with
  | none => (db, Response.notFound "Progress not found")
  | some progress =>
    match findIndex (fun quiz => quiz.quiz == req.quizId) progress.quizzes with
    | none => (db, Response.notFound "Quiz not found in progress")
    | some quizIndex =>
      match db.findCourse req.courseId with
      | none => (db, Response.serverError)
      | some course =>
        match course.quizById req.quizId with
        | none => (db, Response.notFound "Quiz not found in course")
        | some quiz =>
          let quizzes := modifyAt
            (fun entry => entry.update req.score quiz.passingScore env.now) quizIndex
            progress.quizzes
          let progress := { progress with quizzes := quizzes, lastAccessedAt := env.now }
          let progress := progress.calculateProgress.1
          (db.saveProgress req.user req.courseId progress, Response.ok progress)

/-- Lines 254-256 of `submitAssignment` on the entry `progress.assignments[assignmentIndex]`. -/
def AssignmentProgress.submit (entry : AssignmentProgress) (submissionUrl : Option String)
    (now : Timestamp) : AssignmentProgress :=
  { entry with submitted := true, submissionUrl := submissionUrl, submittedAt := some now }

/-- The handler `submitAssignment`. -/
def submitAssignment (db : Db) (env : Env) (req : AssignmentRequest) : Db × Response :=
  match db.findProgress req.user req.courseId with
  | none => (db, Response.notFound "Progress not found")
  | some progress =>
    match findIndex (fun a => a.assignment == req.assignmentId) progress.assignments with
    | none => (db, Response.notFound "Assignment not found in progress")
    | some assignmentIndex =>
      let assignments := modifyAt
        (fun entry => entry.submit req.submissionUrl env.now) assignmentIndex progress.assignments
      let progress := { progress with assignments := assignments, lastAccessedAt := env.now }
      let progress := progress.calculateProgress.1
      (db.saveProgress req.user req.courseId progress, Response.ok progress)

/-- One mutating call of the progress API. -/
inductive Call where
  | lesson (req : LessonRequest)
  | quiz (req : QuizRequest)
  | assignment (req : AssignmentRequest)
deriving DecidableEq, Repr

/-- The handler a call is routed to. -/
def Call.handle (db : Db) (env : Env) : Call → Db × Response
  | Call.lesson req => updateLessonProgress db env req
  | Call.quiz req => submitQuiz db env req
  | Call.assignment req => submitAssignment db env req

/-- The database after a sequence of calls served one after the other. -/
def runCalls (db : Db) : List (Env × Call) → Db
  | [] => db
  | (env, call) :: rest => runCalls (call.handle db env).1 rest

/-- A sequence of `updateLessonProgress` calls on one lesson entry, each with its environment
and its body `(completed, timeSpent)`. -/
def lessonCalls (user course lesson : ObjectId) (bodies : List (Env × Option Bool × Option Int)) :
    List (Env × Call) :=
  bodies.map (fun b => (b.1, Call.lesson
    { user := user, courseId := course, lessonId := lesson, completed := b.2.1,
      timeSpent := b.2.2 }))

/-- A sequence of `submitQuiz` calls on one quiz entry, each with its environment and its
submitted score. -/
def quizCalls (user course quiz : ObjectId) (attempts : List (Env × Int)) : List (Env × Call) :=
  attempts.map (fun a => (a.1, Call.quiz
    { user := user, courseId := course, quizId := quiz, score := a.2 }))

/-! ## Record creation and reading (`getProgress`, `enrollCourse`) -/

/-- The request of `GET /api/progress/:courseId` and of `POST /api/courses/:id/enroll`:
`req.user.id` and the course id of the route. -/
structure CourseRequest where
  user : ObjectId
  courseId : ObjectId
deriving DecidableEq, Repr

/-- The answer `res.status(403).json({ success: false, message })`. -/
def Response.forbidden (message : String) : Response :=
  { status := 403, success := false, message := some message, data := none }

/-- The answer `res.status(400).json({ success: false, message })`. -/
def Response.badRequest (message : String) : Response :=
  { status := 400, success := false, message := some message, data := none }

/-- The answer `res.status(200).json({ success: true, message })` of `enrollCourse`. -/
def Response.enrolled : Response :=
  { status := 200, success := true, message := some "Successfully enrolled in course",
    data := none }

/-- The document built by `Progress.create({ user, course, lessons: course.lessons.map(...),
quizzes: course.quizzes.map(...), assignments: course.assignments.map(...) })`, as written in
`getProgress` and in `enrollCourse`: one entry per id, every other field at its schema default. -/
def Progress.create (user courseId : ObjectId) (course : Course) (now : Timestamp) : Progress :=
  { user := user
    course := courseId
    lessons := course.lessons.map (fun id =>
      { lesson := id, completed := false, completedAt := none, timeSpent := 0 })
    quizzes := course.quizzes.map (fun quiz =>
      { quiz := quiz._id, completed := false, score := 0, attempts := 0, lastAttemptAt := none })
    assignments := course.assignments.map (fun id =>
      { assignment := id, submitted := false, submissionUrl := none, grade := none,
        feedback := none, submittedAt := none, gradedAt := none })
    overallProgress := 0
    lastAccessedAt := now }

/-- The effect of inserting a new document into the `Progress` collection. -/
def Db.insertProgress (db : Db) (progress : Progress) : Db :=
  { db with progresses := db.progresses ++ [progress] }

/-- The handler `getProgress` of `controllers/progress.js`. -/
def getProgress (db : Db) (env : Env) (req : CourseRequest) : Db × Response :=
  match db.findCourse req.courseId with
  | none => (db, Response.notFound "Course not found")
  | some course =>
    let isEnrolled := course.enrollments.any (fun student => student == req.user)
    if isEnrolled then
      match db.findProgress req.user req.courseId with
      | some progress => (db, Response.ok progress)
      | none =>
        let progress := Progress.create req.user req.courseId course env.now
        (db.insertProgress progress, Response.ok progress)
    else (db, Response.forbidden "You must be enrolled in this course to view progress")

/-- The handler `enrollCourse` of `controllers/courses.js`. -/
def enrollCourse (db : Db) (env : Env) (req : CourseRequest) : Db × Response :=
  match db.findCourse req.courseId with
  | none => (db, Response.notFound "Course not found")
  | some course =>
    match db.findUser req.user with
    | none => (db, Response.serverError)
    | some user =>
      let isEnrolled := user.enrolledCourses.any (fun enrolled => enrolled == req.courseId)
      if isEnrolled then (db, Response.badRequest "User already enrolled in this course")
      else
        let course1 := { course with enrollments := course.enrollments ++ [req.user] }
        let user1 := { user with enrolledCourses := user.enrolledCourses ++ [req.courseId] }
        let progress := Progress.create req.user req.courseId course1 env.now
        let db1 := db.insertProgress progress
        let db2 := { db1 with
          courses := replaceFirst (fun c => c._id == req.courseId) course1 db1.courses }
        let db3 := { db2 with
          users := replaceFirst (fun u => u._id == req.user) user1 db2.users }
        (db3, Response.enrolled)

/-! ## The quiz scorer (`submitQuiz` of `controllers/quizzes.js`) -/

/-- The request of `POST /api/quizzes/:id/submit`: `req.user.id`, the quiz id of the route and
the body field `answers`. `none` is an absent (or `null`) field; a present value is indexed by
question, an element being `some n` for the number `n` and `none` for anything else, a missing
element included. -/
structure ScoreRequest where
  user : ObjectId
  id : ObjectId
  answers : Option (List (Option Int))
deriving DecidableEq, Repr

/-- The `data` of the scorer's answer. -/
structure ScoreData where
  score : Number
  passed : Bool
  correctAnswers : Nat
  totalQuestions : Nat
deriving DecidableEq, Repr

/-- The HTTP answer of the scorer. -/
structure ScoreResponse where
  status : Nat
  success : Bool
  message : Option String
  data : Option ScoreData
deriving DecidableEq, Repr

/-- The query `Quiz.findById(id)`. -/
def Db.findQuiz (db : Db) (id : ObjectId) : Option Quiz :=
  db.quizzes.find? (fun q => q._id == id)

/-- The loop `quiz.questions.forEach((question, index) => { if (answers[index] ===
question.correctAnswer) score++ })` on a present `answers`, from position `index` with the
counter at `score`. -/
def countCorrect (answers : List (Option Int)) : Nat → List Question → Nat → Nat
  | _, [], score => score
  | index, question :: rest, score =>
    countCorrect answers (index + 1) rest
      (if answers.getD index none == some question.correctAnswer then score + 1 else score)

/-- Lines 184-192 of the scorer: the final `score`, or `none` when the loop throws, which it
does at `answers[0]` when `answers` is absent and the quiz has a question. -/
def scoreAnswers (answers : Option (List (Option Int))) (questions : List Question) :
    Option Nat :=
  match answers with
  | some present => some (countCorrect present 0 questions 0)
  | none => if questions.isEmpty then some 0 else none

/-- The call `Progress.findOneAndUpdate({ user, course }, { $push: { quizAttempts: ... } },
{ upsert: true })`. `quizAttempts` is not a path of `ProgressSchema`, so the strict schema drops
the `$push`: a matching document is left as it is, and when none matches the upsert inserts a
document holding the two query fields and the schema defaults. -/
def Db.upsertQuizAttempt (db : Db) (env : Env) (user course : ObjectId) : Db :=
  match db.findProgress user course with
  | some _ => db
  | none =>
    db.insertProgress
      { user := user, course := course, lessons := [], quizzes := [], assignments := [],
        overallProgress := 0, lastAccessedAt := env.now }

/-- The handler `submitQuiz` of `controllers/quizzes.js`. -/
def Quizzes.submitQuiz (db : Db) (env : Env) (req : ScoreRequest) : Db × ScoreResponse :=
  match db.findQuiz req.id with
  | none =>
    (db, { status := 404, success := false, message := some "Quiz not found", data := none })
  | some quiz =>
    match scoreAnswers req.answers quiz.questions with
    | none => (db, { status := 500, success := false, message := none, data := none })
    | some score =>
      let percentage := (Number.divNat score quiz.questions.length).mulNat 100
      let passed := percentage.ge quiz.passingScore
      (db.upsertQuizAttempt env req.user quiz.course,
       { status := 200, success := true, message := none,
         data := some
           { score := percentage, passed := passed, correctAnswers := score,
             totalQuestions := quiz.questions.length } })

/-- One call of the three handlers that can create a progress record. -/
inductive AccessCall where
  | enrollCourse (req : CourseRequest)
  | getProgress (req : CourseRequest)
  | submitQuiz (req : ScoreRequest)
deriving DecidableEq, Repr

/-- The database after a call is served by its handler. -/
def AccessCall.handle (db : Db) (env : Env) : AccessCall → Db
  | AccessCall.enrollCourse req => (LMS.enrollCourse db env req).1
  | AccessCall.getProgress req => (LMS.getProgress db env req).1
  | AccessCall.submitQuiz req => (Quizzes.submitQuiz db env req).1

/-- The database after a sequence of such calls served one after the other. -/
def runAccessCalls (db : Db) : List (Env × AccessCall) → Db
  | [] => db
  | (env, call) :: rest => runAccessCalls (call.handle db env) rest

/-- The progress records stored for a learner/course pair. -/
def Db.progressesFor (db : Db) (user course : ObjectId) : List Progress :=
  db.progresses.filter (fun p => p.user == user && p.course == course)

/-! ## Grading (`gradeAssignment` and its route) -/

/-- The request of `PUT /api/progress/:courseId/assignments/:assignmentId/grade/:userId`: the
caller's `req.user.id` and `req.user.role`, the three route parameters and the body fields `grade`
and `feedback` (`none` when absent). -/
structure GradeRequest where
  user : ObjectId
  role : String
  courseId : ObjectId
  assignmentId : ObjectId
  userId : ObjectId
  grade : Option Int
  feedback : Option String
deriving DecidableEq, Repr

/-- The answer `res.status(401).json({ success: false, message })` of `gradeAssignment`. -/
def Response.unauthorized (user : ObjectId) : Response :=
  { status := 401, success := false,
    message := some
      ("User " ++ toString user ++ " is not authorized to grade assignments for this course"),
    data := none }

/-- Lines 329-331 of `gradeAssignment` on the entry `progress.assignments[assignmentIndex]`. -/
def AssignmentProgress.graded (entry : AssignmentProgress) (grade : Option Int)
    (feedback : Option String) (now : Timestamp) : AssignmentProgress :=
  { entry with grade := grade, feedback := feedback, gradedAt := some now }

/-- The handler `gradeAssignment`. -/
def gradeAssignment (db : Db) (env : Env) (req : GradeRequest) : Db × Response :=
  match db.findCourse req.courseId with
  | none => (db, Response.notFound "Course not found")
  | some course =>
    if course.instructor != req.user && req.role != "admin" then
      (db, Response.unauthorized req.user)
    else
      match db.findProgress req.userId req.courseId with
      | none => (db, Response.notFound "Progress not found")
      | some progress =>
        match findIndex (fun a => a.assignment == req.assignmentId) progress.assignments with
        | none => (db, Response.notFound "Assignment not found in progress")
        | some assignmentIndex =>
          let assignments := modifyAt
            (fun entry => entry.graded req.grade req.feedback env.now) assignmentIndex
            progress.assignments
          let progress := { progress with assignments := assignments }
          (db.saveProgress req.userId req.courseId progress, Response.ok progress)

/-- The middleware `authorize(...roles)` of `middleware/auth.js` for an authenticated caller:
`none` lets the request through, otherwise the 403 answer. -/
def authorize (roles : List String) (role : String) : Option Response :=
  if roles.contains role then none
  else some
    { status := 403, success := false,
      message := some ("User role " ++ role ++ " is not authorized to access this route"),
      data := none }

/-- The route `.put(protect, authorize("instructor", "admin"), gradeAssignment)` of
`routes/progress.js` for an authenticated caller. -/
def gradeAssignmentRoute (db : Db) (env : Env) (req : GradeRequest) : Db × Response :=
  match authorize ["instructor", "admin"] req.role with
  | some refusal => (db, refusal)
  | none => gradeAssignment db env req

/-! ## Login lockout (`models/User.js`, `login` of `controllers/auth.js`) -/

/-- The method `incrementLoginAttempts` called at time `now`, before `save`. -/
def User.incrementLoginAttempts (user : User) (now : Timestamp) : User :=
  let loginAttempts := user.loginAttempts + 1
  { user with
    loginAttempts := loginAttempts
    lockUntil := if loginAttempts ≥ 5 then some (now + 30 * 60 * 1000) else user.lockUntil }

/-- The method `resetLoginAttempts` called at time `now`, before `save`. -/
def User.resetLoginAttempts (user : User) (now : Timestamp) : User :=
  { user with loginAttempts := 0, lockUntil := none, lastLogin := some now }

/-- The method `isLocked` called at time `now`: `this.lockUntil && this.lockUntil > Date.now()`. -/
def User.isLocked (user : User) (now : Timestamp) : Bool :=
  match user.lockUntil with
  | none => false
  | some lockUntil => decide (lockUntil > now)

/-- The body of `POST /api/auth/login`. -/
structure LoginRequest where
  email : String
  password : String
deriving DecidableEq, Repr

/-- The HTTP answer of `login`; of `data` only `user._id` is kept, the token and its life time
are left out. -/
structure AuthResponse where
  status : Nat
  success : Bool
  message : Option String
  userId : Option ObjectId
deriving DecidableEq, Repr

/-- The answer `res.status(401).json({ success: false, message })` of `login`. -/
def AuthResponse.rejected (message : String) : AuthResponse :=
  { status := 401, success := false, message := some message, userId := none }

/-- The query `User.findOne({ email })`. -/
def Db.findUserByEmail (db : Db) (email : String) : Option User :=
  db.users.find? (fun u => u.email == email)

/-- The effect of `user.save()` for the user found by `findUserByEmail`. -/
def Db.saveUserByEmail (db : Db) (email : String) (user : User) : Db :=
  let saved := replaceFirst (fun u => u.email == email) user db.users
  { db with users := saved }

/-- The handler `login`. The password test `bcrypt.compare(entered, stored)` of `matchPassword`
is the parameter `compare`; token generation is taken to succeed. -/
def login (compare : String → String → Bool) (db : Db) (env : Env) (req : LoginRequest) :
    Db × AuthResponse :=
  match db.findUserByEmail req.email with
  | none => (db, AuthResponse.rejected "Invalid credentials")
  | some user =>
    if user.isLocked env.now then
      (db, AuthResponse.rejected "Account is locked. Please try again later.")
    else if !user.isActive then
      (db, AuthResponse.rejected "Account is deactivated. Please contact support.")
    else if !compare req.password user.password then
      (db.saveUserByEmail req.email (user.incrementLoginAttempts env.now),
       AuthResponse.rejected "Invalid credentials")
    else
      (db.saveUserByEmail req.email (user.resetLoginAttempts env.now),
       { status := 200, success := true, message := none, userId := some user._id })

/-! ## Observations used to state the properties -/

/-- The lesson entry that `updateLessonProgress` addresses for `(user, course, lesson)`. -/
def Db.lessonEntry (db : Db) (user course lesson : ObjectId) : Option LessonProgress :=
  match db.findProgress user course with
  | none => none
  | some progress =>
    match findIndex (fun entry => entry.lesson == lesson) progress.lessons with
    | none => none
    | some lessonIndex => progress.lessons[lessonIndex]?

/-- The quiz entry that `submitQuiz` addresses for `(user, course, quiz)`. -/
def Db.quizEntry (db : Db) (user course quiz : ObjectId) : Option QuizProgress :=
  match db.findProgress user course with
  | none => none
  | some progress =>
    match findIndex (fun entry => entry.quiz == quiz) progress.quizzes with
    | none => none
    | some quizIndex => progress.quizzes[quizIndex]?

/-- The passing threshold `submitQuiz` reads for `(course, quiz)`. -/
def Db.passingScore (db : Db) (course quiz : ObjectId) : Option Int :=
  match db.findCourse course with
  | none => none
  | some c => (c.quizById quiz).map (fun q => q.passingScore)

/-- The certificates stored for a learner/course pair. -/
def Db.certificatesFor (db : Db) (user course : ObjectId) : List Certificate :=
  db.certificates.filter (fun c => c.user == user && c.course == course)

/-- The assignment entry that `submitAssignment` addresses for `(user, course, assignment)`. -/
def Db.assignmentEntry (db : Db) (user course assignment : ObjectId) :
    Option AssignmentProgress :=
  match db.findProgress user course with
  | none => none
  | some progress =>
    match findIndex (fun entry => entry.assignment == assignment) progress.assignments with
    | none => none
    | some assignmentIndex => progress.assignments[assignmentIndex]?

/-- The value of an upper-case hexadecimal digit. -/
def hexValue (c : Char) : Nat :=
  ("0123456789ABCDEF".toList).indexOf c

/-- The bytes spelled by a string of upper-case hexadecimal digits, two digits per byte. -/
def decodeHex : List Char → List Nat
  | high :: low :: rest => (16 * hexValue high + hexValue low) :: decodeHex rest
  | _ => []

/-! ## A concrete course: two lessons, one quiz with passing score 70, no assignment -/

/-- The course: lessons `1` and `2`, quiz `3` with `passingScore = 70`, learner `7` enrolled. -/
def Scenario.course : Course :=
  { _id := 10, instructor := 99, lessons := [1, 2],
    quizzes := [{ _id := 3, passingScore := 70 }], assignments := [], enrollments := [7] }

/-- A database holding the course, learner `7` and one progress record of the learner for the
course with the given entries. -/
def Scenario.dbOf (lessons : List LessonProgress) (quizzes : List QuizProgress)
    (overallProgress : Nat) : Db :=
  { progresses :=
      [{ user := 7, course := 10, lessons := lessons, quizzes := quizzes, assignments := [],
         overallProgress := overallProgress, lastAccessedAt := 0 }],
    courses := [Scenario.course],
    certificates := [],
    users := [{ _id := 7, certificates := [] }] }

/-- The database right after enrolment: every entry of the record is not started. -/
def Scenario.db : Db :=
  Scenario.dbOf
    [{ lesson := 1, completed := false, completedAt := none, timeSpent := 0 },
     { lesson := 2, completed := false, completedAt := none, timeSpent := 0 }]
    [{ quiz := 3, completed := false, score := 0, attempts := 0, lastAttemptAt := none }] 0

/-- The environment of a call served at time `now`. -/
def Scenario.env (now : Nat) : Env :=
  { now := now, newId := 1000 + now, randomBytes := fun i => Fin.ofNat (now + i.val) }

/-- A course of forty lessons `1, ..., 40` with learner `7` enrolled, and the learner's record
in which the first `done` lessons are completed; `overallProgress` holds `stored`. -/
def Scenario.fortyLessons (done stored : Nat) : Db :=
  { progresses :=
      [{ user := 7, course := 10,
         lessons := (List.range 40).map (fun i =>
           { lesson := i + 1, completed := decide (i < done), completedAt := none,
             timeSpent := 0 }),
         quizzes := [], assignments := [], overallProgress := stored, lastAccessedAt := 0 }],
    courses :=
      [{ _id := 10, instructor := 99, lessons := (List.range 40).map (fun i => i + 1),
         quizzes := [], assignments := [], enrollments := [7] }],
    certificates := [],
    users := [{ _id := 7, certificates := [] }] }

/-- A database for the catalogue handlers: the two-lesson course with nobody enrolled, the
student `8` enrolled nowhere, no progress record, and the quiz document `20` of the course with
`n` questions, each with right option `1`, and the given passing score. -/
def Scenario.catalog (n : Nat) (passingScore : Int) : Db :=
  { progresses := []
    courses := [{ Scenario.course with enrollments := [] }]
    certificates := []
    users := [{ _id := 8, certificates := [] }]
    quizzes :=
      [{ _id := 20, course := 10, questions := List.replicate n { correctAnswer := 1 },
         passingScore := passingScore }] }

/-- An answer set for the quiz of `Scenario.catalog`: the first `right` answers are the right
option `1`, the next `wrong` answers are the option `0`, later ones are missing. -/
def Scenario.answers (right wrong : Nat) : List (Option Int) :=
  List.replicate right (some 1) ++ List.replicate wrong (some 0)

/-- A database with course `10` (instructor `99`, lesson `1`, quiz `3`, assignments `4` and
`5`) whose `enrollments` are as given, and the record of learner `7` for it: nothing done but
assignment `4`, which is submitted and not graded. -/
def Scenario.withAssignments (enrollments : List ObjectId) : Db :=
  { progresses :=
      [{ user := 7, course := 10,
         lessons := [{ lesson := 1, completed := false, completedAt := none, timeSpent := 0 }],
         quizzes :=
           [{ quiz := 3, completed := false, score := 0, attempts := 0, lastAttemptAt := none }],
         assignments :=
           [{ assignment := 4, submitted := true, submissionUrl := some "u", grade := none,
              feedback := none, submittedAt := some 1, gradedAt := none },
            { assignment := 5, submitted := false, submissionUrl := none, grade := none,
              feedback := none, submittedAt := none, gradedAt := none }],
         overallProgress := 25, lastAccessedAt := 1 }],
    courses :=
      [{ _id := 10, instructor := 99, lessons := [1], quizzes := [{ _id := 3, passingScore := 70 }],
         assignments := [4, 5], enrollments := enrollments }],
    certificates := [],
    users := [{ _id := 7, certificates := [] }] }

/-- A course of `n` lessons `1, ..., n` and one assignment `1000`, with the record of learner
`7`: the first `done` lessons are completed and the assignment is not submitted. -/
def Scenario.lessonsAndAssignment (n done : Nat) : Db :=
  { progresses :=
      [{ user := 7, course := 10,
         lessons := (List.range n).map (fun i =>
           { lesson := i + 1, completed := decide (i < done), completedAt := none,
             timeSpent := 0 }),
         quizzes := [],
         assignments :=
           [{ assignment := 1000, submitted := false, submissionUrl := none, grade := none,
              feedback := none, submittedAt := none, gradedAt := none }],
         overallProgress := 0, lastAccessedAt := 0 }],
    courses :=
      [{ _id := 10, instructor := 99, lessons := (List.range n).map (fun i => i + 1),
         quizzes := [], assignments := [1000], enrollments := [7] }],
    certificates := [],
    users := [{ _id := 7, certificates := [] }] }

/-- A database with the single account `learner@lms.test`, whose stored password hash is
`hash`, with the given failure counter and lock. -/
def Scenario.account (loginAttempts : Nat) (lockUntil : Option Timestamp) : Db :=
  { progresses := [], courses := [], certificates := [],
    users :=
      [{ _id := 7, certificates := [], email := "learner@lms.test", password := "hash",
         loginAttempts := loginAttempts, lockUntil := lockUntil }] }

/-- A stand-in for `bcrypt.compare`: the stored hash of the password `pw` is `hash`. -/
def Scenario.compare (entered stored : String) : Bool :=
  entered == "pw" && stored == "hash"

/-! ## The aggregate formula as the specification words it -/

/-- The specification's `round(100 * completedItems / totalItems)` on the exact quotient,
rounding a half up. -/
def Spec.overallProgressPercent (completedItems totalItems : Nat) : Nat :=
  (2 * (100 * completedItems) + totalItems) / (2 * totalItems)

/-- The specification's `round(100 * completedItems / totalItems)` on the exact quotient,
rounding a half to the even neighbour. -/
def Spec.overallProgressPercentHalfEven (completedItems totalItems : Nat) : Nat :=
  roundTiesToEven (100 * completedItems) totalItems

/-! ## The quiz scorer and record seeding as the specification words them -/

/-- The specification's count: the number of indices `i` in `[0, totalQuestions)` with
`answers[i] === questions[i].correctAnswer`. -/
def Spec.correctCount (answers : List (Option Int)) (questions : List Question) : Nat :=
  ((List.range questions.length).filter (fun i =>
    match questions[i]? with
    | some question => answers.getD i none == some question.correctAnswer
    | none => false)).length

/-- The specification's `100 * correctCount / totalQuestions` as JavaScript evaluates it: the
product is exact and the quotient is rounded once. -/
def Spec.percent (correctCount totalQuestions : Nat) : Number :=
  Number.divNat (100 * correctCount) totalQuestions

/-- The specification's `passed = percent >= quiz.passingScore` on the exact percentage
`100 * correctCount / totalQuestions`, for `0 < totalQuestions`. -/
def Spec.passed (correctCount totalQuestions : Nat) (passingScore : Int) : Bool :=
  decide (passingScore * (totalQuestions : Int) ≤ 100 * (correctCount : Int))

/-- The specification's "not started" record for a course: one entry per lesson, quiz and
assignment with the same ids in the same order, nothing completed or submitted, no attempt, no
time spent, and `overallProgress = 0`. -/
def Spec.NotStarted (record : Progress) (user courseId : ObjectId) (course : Course) : Prop :=
  record.user = user ∧ record.course = courseId
    ∧ record.lessons.map (fun entry => entry.lesson) = course.lessons
    ∧ (∀ entry ∈ record.lessons,
        entry.completed = false ∧ entry.completedAt = none ∧ entry.timeSpent = 0)
    ∧ record.quizzes.map (fun entry => entry.quiz) = course.quizzes.map (fun quiz => quiz._id)
    ∧ (∀ entry ∈ record.quizzes,
        entry.completed = false ∧ entry.score = 0 ∧ entry.attempts = 0
          ∧ entry.lastAttemptAt = none)
    ∧ record.assignments.map (fun entry => entry.assignment) = course.assignments
    ∧ (∀ entry ∈ record.assignments,
        entry.submitted = false ∧ entry.submissionUrl = none ∧ entry.grade = none
          ∧ entry.submittedAt = none)
    ∧ record.overallProgress = 0

/-! ## Lemmas on the primitives -/

theorem findIndex_some {α : Type} (f : α → Bool) :
    ∀ (l : List α) (i : Nat), findIndex f l = some i → ∃ a, l[i]? = some a ∧ f a = true := by
  intro l
  induction l with
  | nil => intro i h; simp [findIndex] at h
  | cons a as ih =>
    intro i h
    by_cases hfa : f a = true
    · simp [findIndex, hfa] at h
      subst h
      exact ⟨a, by simp, hfa⟩
    · simp [findIndex, hfa] at h
      obtain ⟨j, hj, rfl⟩ := h
      obtain ⟨b, hb, hfb⟩ := ih j hj
      exact ⟨b, by simpa using hb, hfb⟩

theorem findIndex_modifyAt {α : Type} (f : α → Bool) (g : α → α) (hg : ∀ a, f (g a) = f a) :
    ∀ (l : List α) (i : Nat), findIndex f (modifyAt g i l) = findIndex f l := by
  intro l
  induction l with
  | nil => intro i; cases i <;> rfl
  | cons a as ih =>
    intro i
    cases i with
    | zero => simp [modifyAt, findIndex, hg]
    | succ j => simp [modifyAt, findIndex, ih j]

theorem getElem?_modifyAt_eq {α : Type} (g : α → α) :
    ∀ (l : List α) (i : Nat), (modifyAt g i l)[i]? = (l[i]?).map g := by
  intro l
  induction l with
  | nil => intro i; cases i <;> simp [modifyAt]
  | cons a as ih =>
    intro i
    cases i with
    | zero => simp [modifyAt]
    | succ j => simpa [modifyAt] using ih j

theorem getElem?_modifyAt_ne {α : Type} (g : α → α) :
    ∀ (l : List α) (i j : Nat), j ≠ i → (modifyAt g i l)[j]? = l[j]? := by
  intro l
  induction l with
  | nil => intro i j _; cases i <;> simp [modifyAt]
  | cons a as ih =>
    intro i j hne
    cases i with
    | zero =>
      cases j with
      | zero => exact absurd rfl hne
      | succ k => simp [modifyAt]
    | succ i1 =>
      cases j with
      | zero => simp [modifyAt]
      | succ k =>
        have hk : k ≠ i1 := fun h => hne (by rw [h])
        simpa [modifyAt] using ih i1 k hk

theorem length_modifyAt {α : Type} (g : α → α) :
    ∀ (l : List α) (i : Nat), (modifyAt g i l).length = l.length := by
  intro l
  induction l with
  | nil => intro i; cases i <;> rfl
  | cons a as ih =>
    intro i
    cases i with
    | zero => simp [modifyAt]
    | succ j => simp [modifyAt, ih j]

theorem find?_replaceFirst {α : Type} (f : α → Bool) (doc : α) (hdoc : f doc = true) :
    ∀ (l : List α) (a : α), l.find? f = some a → (replaceFirst f doc l).find? f = some doc := by
  intro l
  induction l with
  | nil => intro a h; simp at h
  | cons b bs ih =>
    intro a h
    by_cases hfb : f b = true
    · simp [replaceFirst, hfb, List.find?, hdoc]
    · simp only [Bool.not_eq_true] at hfb
      simp only [List.find?, hfb] at h
      simp [replaceFirst, hfb, List.find?, ih a h]

theorem replaceFirst_of_find?_none {α : Type} (f : α → Bool) (doc : α) :
    ∀ (l : List α), l.find? f = none → replaceFirst f doc l = l := by
  intro l
  induction l with
  | nil => intro _; rfl
  | cons b bs ih =>
    intro h
    by_cases hfb : f b = true
    · simp [List.find?, hfb] at h
    · simp only [Bool.not_eq_true] at hfb
      simp only [List.find?, hfb] at h
      simp [replaceFirst, hfb, ih h]

/-! ## Lemmas on `calculateProgress` -/

theorem calculateProgress_lessons (p : Progress) : p.calculateProgress.1.lessons = p.lessons := by
  unfold Progress.calculateProgress; split <;> rfl

theorem calculateProgress_quizzes (p : Progress) : p.calculateProgress.1.quizzes = p.quizzes := by
  unfold Progress.calculateProgress; split <;> rfl

theorem calculateProgress_assignments (p : Progress) :
    p.calculateProgress.1.assignments = p.assignments := by
  unfold Progress.calculateProgress; split <;> rfl

theorem calculateProgress_user (p : Progress) : p.calculateProgress.1.user = p.user := by
  unfold Progress.calculateProgress; split <;> rfl

theorem calculateProgress_course (p : Progress) : p.calculateProgress.1.course = p.course := by
  unfold Progress.calculateProgress; split <;> rfl

/-! ## Lemmas on the database -/

theorem findProgress_key (db : Db) (user course : ObjectId) (p : Progress)
    (h : db.findProgress user course = some p) : p.user = user ∧ p.course = course := by
  have := List.find?_some h
  simpa using this

theorem findProgress_saveProgress (db : Db) (user course : ObjectId) (p q : Progress)
    (h : db.findProgress user course = some p) (hu : q.user = user) (hc : q.course = course) :
    (db.saveProgress user course q).findProgress user course = some q := by
  unfold Db.findProgress Db.saveProgress
  exact find?_replaceFirst _ q (by simp [hu, hc]) _ p h

theorem preSave_key (c : Certificate) (bytes : Fin 8 → Fin 256) :
    (c.preSave bytes)._id = c._id ∧ (c.preSave bytes).user = c.user
      ∧ (c.preSave bytes).course = c.course := by
  unfold Certificate.preSave
  split <;> simp

theorem createCertificate_some (db db1 : Db) (env : Env) (user course : ObjectId)
    (certificate : Certificate) (h : db.createCertificate env user course = some (db1, certificate)) :
    db1.progresses = db.progresses ∧ db1.courses = db.courses ∧ db1.users = db.users
      ∧ db1.certificates = db.certificates ++ [certificate]
      ∧ certificate._id = env.newId ∧ certificate.user = user ∧ certificate.course = course := by
  unfold Db.createCertificate at h
  simp only at h
  split at h
  · exact absurd h (by simp)
  · simp only [Option.some.injEq, Prod.mk.injEq] at h
    obtain ⟨h1, h2⟩ := h
    subst h1
    subst h2
    have hk := preSave_key
      { _id := env.newId, user := user, course := course, certificateId := "",
        issueDate := env.now, completionDate := env.now } env.randomBytes
    simp only at hk
    exact ⟨rfl, rfl, rfl, rfl, hk.1, hk.2.1, hk.2.2⟩

theorem issueCertificate_progresses (db : Db) (env : Env) (user course : ObjectId)
    (progress : Progress) :
    (issueCertificate db env user course progress).1.progresses = db.progresses := by
  unfold issueCertificate
  simp only
  split
  · split
    · rfl
    · split
      · rfl
      · rename_i db1 certificate hcreate
        have hc := createCertificate_some db db1 env user course certificate hcreate
        split
        · exact hc.1
        · exact hc.1
  · rfl

theorem issueCertificate_courses (db : Db) (env : Env) (user course : ObjectId)
    (progress : Progress) :
    (issueCertificate db env user course progress).1.courses = db.courses := by
  unfold issueCertificate
  simp only
  split
  · split
    · rfl
    · split
      · rfl
      · rename_i db1 certificate hcreate
        have hc := createCertificate_some db db1 env user course certificate hcreate
        split
        · exact hc.2.1
        · exact hc.2.1
  · rfl

/-! ## Effect of the handlers on the addressed entry -/

theorem lessonEntry_some (db : Db) (user course lesson : ObjectId) (old : LessonProgress)
    (h : db.lessonEntry user course lesson = some old) :
    ∃ progress lessonIndex, db.findProgress user course = some progress
      ∧ findIndex (fun entry => entry.lesson == lesson) progress.lessons = some lessonIndex
      ∧ progress.lessons[lessonIndex]? = some old := by
  unfold Db.lessonEntry at h
  cases hp : db.findProgress user course with
  | none => simp [hp] at h
  | some progress =>
    cases hi : findIndex (fun entry => entry.lesson == lesson) progress.lessons with
    | none => simp [hp, hi] at h
    | some lessonIndex =>
      simp only [hp, hi] at h
      exact ⟨progress, lessonIndex, rfl, hi, h⟩

theorem updateLessonProgress_progresses (db : Db) (env : Env) (req : LessonRequest)
    (progress : Progress) (lessonIndex : Nat)
    (hp : db.findProgress req.user req.courseId = some progress)
    (hi : findIndex (fun entry => entry.lesson == req.lessonId) progress.lessons
      = some lessonIndex) :
    (updateLessonProgress db env req).1.findProgress req.user req.courseId
      = some ({ progress with
          lessons := modifyAt (fun entry => entry.update req.completed req.timeSpent env.now)
            lessonIndex progress.lessons,
          lastAccessedAt := env.now } : Progress).calculateProgress.1 := by
  obtain ⟨hu, hc⟩ := findProgress_key db _ _ _ hp
  unfold updateLessonProgress
  simp only [hp, hi]
  generalize hq : ({ progress with
      lessons := modifyAt (fun entry => entry.update req.completed req.timeSpent env.now)
        lessonIndex progress.lessons,
      lastAccessedAt := env.now } : Progress).calculateProgress.1 = q
  have hqu : q.user = req.user := by rw [← hq, calculateProgress_user]; exact hu
  have hqc : q.course = req.courseId := by rw [← hq, calculateProgress_course]; exact hc
  have hsave := findProgress_saveProgress db req.user req.courseId progress q hp hqu hqc
  have hiss := issueCertificate_progresses (db.saveProgress req.user req.courseId q) env
    req.user req.courseId q
  have hfind : (issueCertificate (db.saveProgress req.user req.courseId q) env
      req.user req.courseId q).1.findProgress req.user req.courseId = some q := by
    unfold Db.findProgress at hsave ⊢
    rw [hiss]
    exact hsave
  split
  · rename_i db2 h2
    rw [h2] at hfind
    exact hfind
  · rename_i db2 h2
    rw [h2] at hfind
    exact hfind

theorem updateLessonProgress_lessonEntry (db : Db) (env : Env) (req : LessonRequest)
    (old : LessonProgress) (h : db.lessonEntry req.user req.courseId req.lessonId = some old) :
    (updateLessonProgress db env req).1.lessonEntry req.user req.courseId req.lessonId
      = some (old.update req.completed req.timeSpent env.now) := by
  obtain ⟨progress, lessonIndex, hp, hi, hold⟩ := lessonEntry_some db _ _ _ old h
  have hnew := updateLessonProgress_progresses db env req progress lessonIndex hp hi
  unfold Db.lessonEntry
  rw [hnew]
  simp only [calculateProgress_lessons]
  rw [findIndex_modifyAt _ _ (fun a => by simp [LessonProgress.update]), hi]
  simp only
  rw [getElem?_modifyAt_eq, hold]
  rfl

theorem quizEntry_some (db : Db) (user course quiz : ObjectId) (old : QuizProgress)
    (h : db.quizEntry user course quiz = some old) :
    ∃ progress quizIndex, db.findProgress user course = some progress
      ∧ findIndex (fun entry => entry.quiz == quiz) progress.quizzes = some quizIndex
      ∧ progress.quizzes[quizIndex]? = some old := by
  unfold Db.quizEntry at h
  cases hp : db.findProgress user course with
  | none => simp [hp] at h
  | some progress =>
    cases hi : findIndex (fun entry => entry.quiz == quiz) progress.quizzes with
    | none => simp [hp, hi] at h
    | some quizIndex =>
      simp only [hp, hi] at h
      exact ⟨progress, quizIndex, rfl, hi, h⟩

theorem passingScore_some (db : Db) (course quiz : ObjectId) (ps : Int)
    (h : db.passingScore course quiz = some ps) :
    ∃ c q, db.findCourse course = some c ∧ c.quizById quiz = some q ∧ q.passingScore = ps := by
  unfold Db.passingScore at h
  cases hc : db.findCourse course with
  | none => simp [hc] at h
  | some c =>
    cases hq : c.quizById quiz with
    | none => simp [hc, hq] at h
    | some q =>
      simp only [hc, hq, Option.map_some', Option.some.injEq] at h
      exact ⟨c, q, rfl, hq, h⟩

theorem submitQuiz_eq (db : Db) (env : Env) (req : QuizRequest) (progress : Progress)
    (quizIndex : Nat) (ps : Int)
    (hp : db.findProgress req.user req.courseId = some progress)
    (hi : findIndex (fun entry => entry.quiz == req.quizId) progress.quizzes = some quizIndex)
    (hps : db.passingScore req.courseId req.quizId = some ps) :
    submitQuiz db env req =
      (db.saveProgress req.user req.courseId
        ({ progress with
          quizzes := modifyAt (fun entry => entry.update req.score ps env.now) quizIndex
            progress.quizzes,
          lastAccessedAt := env.now } : Progress).calculateProgress.1,
       Response.ok ({ progress with
          quizzes := modifyAt (fun entry => entry.update req.score ps env.now) quizIndex
            progress.quizzes,
          lastAccessedAt := env.now } : Progress).calculateProgress.1) := by
  obtain ⟨c, q, hc, hq, hqs⟩ := passingScore_some db _ _ ps hps
  unfold submitQuiz
  simp only [hp, hi, hc, hq, hqs]

theorem submitQuiz_progresses (db : Db) (env : Env) (req : QuizRequest) (progress : Progress)
    (quizIndex : Nat) (ps : Int)
    (hp : db.findProgress req.user req.courseId = some progress)
    (hi : findIndex (fun entry => entry.quiz == req.quizId) progress.quizzes = some quizIndex)
    (hps : db.passingScore req.courseId req.quizId = some ps) :
    (submitQuiz db env req).1.findProgress req.user req.courseId
      = some ({ progress with
          quizzes := modifyAt (fun entry => entry.update req.score ps env.now) quizIndex
            progress.quizzes,
          lastAccessedAt := env.now } : Progress).calculateProgress.1 := by
  obtain ⟨hu, hc⟩ := findProgress_key db _ _ _ hp
  rw [submitQuiz_eq db env req progress quizIndex ps hp hi hps]
  apply findProgress_saveProgress db req.user req.courseId progress _ hp
  · rw [calculateProgress_user]; exact hu
  · rw [calculateProgress_course]; exact hc

theorem submitQuiz_quizEntry (db : Db) (env : Env) (req : QuizRequest) (old : QuizProgress)
    (ps : Int) (h : db.quizEntry req.user req.courseId req.quizId = some old)
    (hps : db.passingScore req.courseId req.quizId = some ps) :
    (submitQuiz db env req).1.quizEntry req.user req.courseId req.quizId
      = some (old.update req.score ps env.now) := by
  obtain ⟨progress, quizIndex, hp, hi, hold⟩ := quizEntry_some db _ _ _ old h
  have hnew := submitQuiz_progresses db env req progress quizIndex ps hp hi hps
  unfold Db.quizEntry
  rw [hnew]
  simp only [calculateProgress_quizzes]
  rw [findIndex_modifyAt _ _ (fun a => by simp [QuizProgress.update]), hi]
  simp only
  rw [getElem?_modifyAt_eq, hold]
  rfl

theorem submitQuiz_passingScore (db : Db) (env : Env) (req : QuizRequest)
    (course quiz : ObjectId) :
    (submitQuiz db env req).1.passingScore course quiz = db.passingScore course quiz := by
  have hcs : (submitQuiz db env req).1.courses = db.courses := by
    unfold submitQuiz
    repeat' split
    all_goals rfl
  unfold Db.passingScore Db.findCourse
  rw [hcs]

/-! ## Sequences of calls on one entry -/

theorem lessonEntry_runCalls (user course lesson : ObjectId) :
    ∀ (bodies : List (Env × Option Bool × Option Int)) (db : Db) (old : LessonProgress),
      db.lessonEntry user course lesson = some old →
      (runCalls db (lessonCalls user course lesson bodies)).lessonEntry user course lesson
        = some (bodies.foldl (fun entry b => entry.update b.2.1 b.2.2 b.1.now) old) := by
  intro bodies
  induction bodies with
  | nil => intro db old h; simpa [lessonCalls, runCalls] using h
  | cons b rest ih =>
    intro db old h
    have hstep := updateLessonProgress_lessonEntry db b.1
      { user := user, courseId := course, lessonId := lesson, completed := b.2.1,
        timeSpent := b.2.2 } old h
    have := ih _ _ hstep
    simpa [lessonCalls, runCalls, Call.handle] using this

theorem quizEntry_runCalls (user course quiz : ObjectId) (ps : Int) :
    ∀ (attempts : List (Env × Int)) (db : Db) (old : QuizProgress),
      db.quizEntry user course quiz = some old →
      db.passingScore course quiz = some ps →
      (runCalls db (quizCalls user course quiz attempts)).quizEntry user course quiz
        = some (attempts.foldl (fun entry a => entry.update a.2 ps a.1.now) old) := by
  intro attempts
  induction attempts with
  | nil => intro db old h _; simpa [quizCalls, runCalls] using h
  | cons a rest ih =>
    intro db old h hps
    have hstep := submitQuiz_quizEntry db a.1
      { user := user, courseId := course, quizId := quiz, score := a.2 } old ps h hps
    have hps2 := submitQuiz_passingScore db a.1
      { user := user, courseId := course, quizId := quiz, score := a.2 } course quiz
    have := ih _ _ hstep (hps2.trans hps)
    simpa [quizCalls, runCalls, Call.handle] using this

theorem foldl_lesson_completed :
    ∀ (bodies : List (Env × Option Bool × Option Int)) (old : LessonProgress),
      old.completed = true →
      (bodies.foldl (fun entry b => entry.update b.2.1 b.2.2 b.1.now) old).completed = true := by
  intro bodies
  induction bodies with
  | nil => intro old h; simpa using h
  | cons b rest ih =>
    intro old h
    simp only [List.foldl_cons]
    apply ih
    simp [LessonProgress.update, h]

theorem foldl_lesson_timeSpent :
    ∀ (bodies : List (Env × Option Bool × Option Int)) (old : LessonProgress),
      (bodies.foldl (fun entry b => entry.update b.2.1 b.2.2 b.1.now) old).timeSpent
        = old.timeSpent + (bodies.map (fun b => b.2.2.getD 0)).sum := by
  intro bodies
  induction bodies with
  | nil => intro old; simp
  | cons b rest ih =>
    intro old
    simp only [List.foldl_cons, List.map_cons, List.sum_cons]
    rw [ih]
    simp only [LessonProgress.update]
    omega

theorem foldl_quiz_attempts (ps : Int) :
    ∀ (attempts : List (Env × Int)) (old : QuizProgress),
      (attempts.foldl (fun entry a => entry.update a.2 ps a.1.now) old).attempts
        = old.attempts + attempts.length := by
  intro attempts
  induction attempts with
  | nil => intro old; simp
  | cons a rest ih =>
    intro old
    simp only [List.foldl_cons, List.length_cons]
    rw [ih]
    simp only [QuizProgress.update]
    omega

theorem foldl_quiz_completed (ps : Int) :
    ∀ (attempts : List (Env × Int)) (old : QuizProgress),
      old.completed = true →
      (attempts.foldl (fun entry a => entry.update a.2 ps a.1.now) old).completed = true := by
  intro attempts
  induction attempts with
  | nil => intro old h; simpa using h
  | cons a rest ih =>
    intro old h
    simp only [List.foldl_cons]
    apply ih
    simp [QuizProgress.update, h]

theorem foldl_quiz_score_append (ps : Int) (attempts : List (Env × Int)) (last : Env × Int)
    (old : QuizProgress) :
    ((attempts ++ [last]).foldl (fun entry a => entry.update a.2 ps a.1.now) old).score
      = last.2 := by
  simp [List.foldl_append, QuizProgress.update]

theorem getElem?_replaceFirst_ne {α : Type} (f : α → Bool) (doc : α) :
    ∀ (l : List α) (k : Nat), findIndex f l ≠ some k → (replaceFirst f doc l)[k]? = l[k]? := by
  intro l
  induction l with
  | nil => intro k _; rfl
  | cons a as ih =>
    intro k hk
    by_cases hfa : f a = true
    · cases k with
      | zero => simp [findIndex, hfa] at hk
      | succ j => simp [replaceFirst, hfa]
    · cases k with
      | zero => simp [replaceFirst, hfa]
      | succ j =>
        have hj : findIndex f as ≠ some j := by
          intro hj
          apply hk
          simp [findIndex, hfa, hj]
        simpa [replaceFirst, hfa] using ih j hj

theorem length_filter_modifyAt {α : Type} (f : α → Bool) (g : α → α) :
    ∀ (l : List α) (i : Nat) (a : α), l[i]? = some a →
      ((modifyAt g i l).filter f).length + (if f a then 1 else 0)
        = (l.filter f).length + (if f (g a) then 1 else 0) := by
  intro l
  induction l with
  | nil => intro i a h; simp at h
  | cons b bs ih =>
    intro i a h
    cases i with
    | zero =>
      simp only [List.getElem?_cons_zero, Option.some.injEq] at h
      subst h
      simp only [modifyAt, List.filter_cons]
      by_cases h1 : f b = true <;> by_cases h2 : f (g b) = true <;> simp [h1, h2]
    | succ j =>
      simp only [List.getElem?_cons_succ] at h
      have := ih j a h
      simp only [modifyAt, List.filter_cons]
      by_cases h1 : f b = true <;> simp [h1] <;> omega

theorem submitQuiz_ok (db : Db) (env : Env) (req : QuizRequest)
    (h : (submitQuiz db env req).2.status = 200) :
    ∃ progress quizIndex ps, db.findProgress req.user req.courseId = some progress
      ∧ findIndex (fun entry => entry.quiz == req.quizId) progress.quizzes = some quizIndex
      ∧ db.passingScore req.courseId req.quizId = some ps := by
  unfold submitQuiz at h
  split at h
  · simp [Response.notFound] at h
  · rename_i progress hp
    split at h
    · simp [Response.notFound] at h
    · rename_i quizIndex hi
      split at h
      · simp [Response.serverError] at h
      · rename_i course hc
        split at h
        · simp [Response.notFound] at h
        · rename_i quiz hq
          exact ⟨progress, quizIndex, quiz.passingScore, hp, hi, by simp [Db.passingScore, hc, hq]⟩

/-! ## Lesson entries: completion flag and time spent -/

/-- C8: over every sequence of `updateLessonProgress` calls on one lesson entry, with request
values of `completed` that are true, false or absent, an entry whose `completed` flag is true
still has it true after the sequence. -/
theorem updateLessonProgress_completed_never_reset (db : Db) (user course lesson : ObjectId)
    (old : LessonProgress) (h : db.lessonEntry user course lesson = some old)
    (hc : old.completed = true) (bodies : List (Env × Option Bool × Option Int)) :
    ((runCalls db (lessonCalls user course lesson bodies)).lessonEntry user course lesson).map
      (fun entry => entry.completed) = some true := by
  rw [lessonEntry_runCalls user course lesson bodies db old h]
  simp [foldl_lesson_completed bodies old hc]

theorem updateLessonProgress_completed_never_reset_witness :
    (Scenario.dbOf [{ lesson := 1, completed := true, completedAt := some 5, timeSpent := 0 }]
        [] 100).lessonEntry 7 10 1
      = some { lesson := 1, completed := true, completedAt := some 5, timeSpent := 0 }
    ∧ ((runCalls
        (Scenario.dbOf [{ lesson := 1, completed := true, completedAt := some 5, timeSpent := 0 }]
          [] 100)
        (lessonCalls 7 10 1
          [(Scenario.env 6, some false, none), (Scenario.env 7, none, some 3),
           (Scenario.env 8, some true, none)])).lessonEntry 7 10 1).map
        (fun entry => entry.completed) = some true :=
  ⟨by decide,
   updateLessonProgress_completed_never_reset _ 7 10 1
     { lesson := 1, completed := true, completedAt := some 5, timeSpent := 0 } (by decide) rfl _⟩

/-- C9, as stated, fails: a call whose body carries `timeSpent = -50` lowers the entry's
`timeSpent` from 100 to 50. -/
theorem updateLessonProgress_timeSpent_decreases :
    ((runCalls Scenario.db (lessonCalls 7 10 1 [(Scenario.env 1, some true, some 100)])).lessonEntry
        7 10 1).map (fun entry => entry.timeSpent) = some 100
    ∧ ((runCalls Scenario.db (lessonCalls 7 10 1
        [(Scenario.env 1, some true, some 100), (Scenario.env 2, none, some (-50))])).lessonEntry
        7 10 1).map (fun entry => entry.timeSpent) = some 50 := by
  decide

/-- C9, amended: over every sequence of `updateLessonProgress` calls on one lesson entry whose
`timeSpent` values are absent or non-negative, the entry's `timeSpent` after the sequence is at
least what it was before. -/
theorem updateLessonProgress_timeSpent_monotone (db : Db) (user course lesson : ObjectId)
    (old : LessonProgress) (h : db.lessonEntry user course lesson = some old)
    (bodies : List (Env × Option Bool × Option Int))
    (hnonneg : ∀ b ∈ bodies, 0 ≤ b.2.2.getD 0) :
    ∃ new, (runCalls db (lessonCalls user course lesson bodies)).lessonEntry user course lesson
        = some new
      ∧ old.timeSpent ≤ new.timeSpent := by
  refine ⟨_, lessonEntry_runCalls user course lesson bodies db old h, ?_⟩
  rw [foldl_lesson_timeSpent]
  have hsum : 0 ≤ (bodies.map (fun b => b.2.2.getD 0)).sum := by
    apply List.sum_nonneg
    intro x hx
    obtain ⟨b, hb, rfl⟩ := List.mem_map.1 hx
    exact hnonneg b hb
  omega

theorem updateLessonProgress_timeSpent_monotone_witness :
    Scenario.db.lessonEntry 7 10 1
      = some { lesson := 1, completed := false, completedAt := none, timeSpent := 0 }
    ∧ (∀ b ∈ [(Scenario.env 1, some true, some (120 : Int)), (Scenario.env 2, none, none)],
        0 ≤ b.2.2.getD 0)
    ∧ ∃ new, (runCalls Scenario.db (lessonCalls 7 10 1
          [(Scenario.env 1, some true, some 120), (Scenario.env 2, none, none)])).lessonEntry
          7 10 1 = some new
        ∧ (0 : Int) ≤ new.timeSpent :=
  ⟨by decide, by simp,
   updateLessonProgress_timeSpent_monotone Scenario.db 7 10 1
     { lesson := 1, completed := false, completedAt := none, timeSpent := 0 } (by decide)
     [(Scenario.env 1, some true, some 120), (Scenario.env 2, none, none)] (by simp)⟩

/-- C5, as stated, fails: after the attempts 85 and 50 on one quiz entry the stored score is 50,
not the maximum 85; the later, lower attempt has decreased it. -/
theorem submitQuiz_score_not_ratchet :
    ((runCalls Scenario.db (quizCalls 7 10 3 [(Scenario.env 1, 85)])).quizEntry 7 10 3).map
        (fun entry => entry.score) = some 85
    ∧ ((runCalls Scenario.db
        (quizCalls 7 10 3 [(Scenario.env 1, 85), (Scenario.env 2, 50)])).quizEntry 7 10 3).map
        (fun entry => entry.score) = some 50
    ∧ ((runCalls Scenario.db
        (quizCalls 7 10 3 [(Scenario.env 1, 85), (Scenario.env 2, 50)])).quizEntry 7 10 3).map
        (fun entry => entry.score) ≠ some (max 85 50) := by
  decide

/-- C5, amended: over every non-empty sequence of `submitQuiz` calls on one quiz entry of a quiz
the course holds, the stored score after the sequence is the score of the last call. -/
theorem submitQuiz_score_latest (db : Db) (user course quiz : ObjectId) (old : QuizProgress)
    (ps : Int) (h : db.quizEntry user course quiz = some old)
    (hps : db.passingScore course quiz = some ps) (attempts : List (Env × Int))
    (last : Env × Int) :
    ((runCalls db (quizCalls user course quiz (attempts ++ [last]))).quizEntry
      user course quiz).map (fun entry => entry.score) = some last.2 := by
  rw [quizEntry_runCalls user course quiz ps (attempts ++ [last]) db old h hps]
  simp only [Option.map_some', Option.some.injEq]
  exact foldl_quiz_score_append ps attempts last old

theorem submitQuiz_score_latest_witness :
    Scenario.db.quizEntry 7 10 3
      = some { quiz := 3, completed := false, score := 0, attempts := 0, lastAttemptAt := none }
    ∧ Scenario.db.passingScore 10 3 = some 70
    ∧ ((runCalls Scenario.db (quizCalls 7 10 3
        ([(Scenario.env 1, 50), (Scenario.env 2, 85)] ++ [(Scenario.env 3, 60)]))).quizEntry
        7 10 3).map (fun entry => entry.score) = some 60 :=
  ⟨by decide, by decide,
   submitQuiz_score_latest Scenario.db 7 10 3
     { quiz := 3, completed := false, score := 0, attempts := 0, lastAttemptAt := none } 70
     (by decide) (by decide) [(Scenario.env 1, 50), (Scenario.env 2, 85)] (Scenario.env 3, 60)⟩

/-- C6: a `submitQuiz` call answered with status 200 addresses a quiz entry of the caller's
record, leaves that entry with `attempts` one higher whatever the score, leaves every other quiz
entry of the record and every other progress document as they were, and `N` such calls in a row
leave `attempts` higher by `N`. -/
theorem submitQuiz_attempts (db : Db) (env : Env) (req : QuizRequest)
    (h : (submitQuiz db env req).2.status = 200) :
    (∃ progress quizIndex old progress',
      db.findProgress req.user req.courseId = some progress
      ∧ findIndex (fun entry => entry.quiz == req.quizId) progress.quizzes = some quizIndex
      ∧ progress.quizzes[quizIndex]? = some old
      ∧ (submitQuiz db env req).1.findProgress req.user req.courseId = some progress'
      ∧ (progress'.quizzes[quizIndex]?).map (fun entry => entry.attempts)
          = some (old.attempts + 1)
      ∧ ∀ j, j ≠ quizIndex → progress'.quizzes[j]? = progress.quizzes[j]?)
    ∧ (∀ k, findIndex (fun p => p.user == req.user && p.course == req.courseId) db.progresses
          ≠ some k →
        (submitQuiz db env req).1.progresses[k]? = db.progresses[k]?)
    ∧ ∀ attempts : List (Env × Int),
        ((runCalls db (quizCalls req.user req.courseId req.quizId attempts)).quizEntry
          req.user req.courseId req.quizId).map (fun entry => entry.attempts)
          = (db.quizEntry req.user req.courseId req.quizId).map
              (fun entry => entry.attempts + attempts.length) := by
  obtain ⟨progress, quizIndex, ps, hp, hi, hps⟩ := submitQuiz_ok db env req h
  obtain ⟨old, hold, -⟩ := findIndex_some _ _ _ hi
  have hentry : db.quizEntry req.user req.courseId req.quizId = some old := by
    simp [Db.quizEntry, hp, hi, hold]
  refine ⟨⟨progress, quizIndex, old, _, hp, hi, hold,
    submitQuiz_progresses db env req progress quizIndex ps hp hi hps, ?_, ?_⟩, ?_, ?_⟩
  · rw [calculateProgress_quizzes]
    simp only
    rw [getElem?_modifyAt_eq, hold]
    rfl
  · intro j hj
    rw [calculateProgress_quizzes]
    exact getElem?_modifyAt_ne _ _ _ _ hj
  · intro k hk
    rw [submitQuiz_eq db env req progress quizIndex ps hp hi hps]
    exact getElem?_replaceFirst_ne _ _ _ _ hk
  · intro attempts
    rw [quizEntry_runCalls req.user req.courseId req.quizId ps attempts db old hentry hps, hentry]
    simp [foldl_quiz_attempts]

theorem submitQuiz_attempts_witness :
    (submitQuiz Scenario.db (Scenario.env 1)
        { user := 7, courseId := 10, quizId := 3, score := 50 }).2.status = 200
    ∧ ((runCalls Scenario.db (quizCalls 7 10 3
        [(Scenario.env 1, 50), (Scenario.env 2, 85), (Scenario.env 3, 20)])).quizEntry
        7 10 3).map (fun entry => entry.attempts) = some 3 :=
  ⟨by decide,
   ((submitQuiz_attempts Scenario.db (Scenario.env 1)
      { user := 7, courseId := 10, quizId := 3, score := 50 } (by decide)).2.2
      [(Scenario.env 1, 50), (Scenario.env 2, 85), (Scenario.env 3, 20)]).trans (by decide)⟩

/-- C7: a `submitQuiz` call on a known quiz entry of a quiz the course holds leaves `completed`
true when the score reaches `passingScore` or when it was true before; an entry that is completed
stays completed over every later sequence of attempts; and the number of completed quiz entries
of the record rises by one exactly when the entry was not completed and the score passes. -/
theorem submitQuiz_completed (db : Db) (env : Env) (req : QuizRequest) (old : QuizProgress)
    (ps : Int) (h : db.quizEntry req.user req.courseId req.quizId = some old)
    (hps : db.passingScore req.courseId req.quizId = some ps) :
    ((submitQuiz db env req).1.quizEntry req.user req.courseId req.quizId).map
        (fun entry => entry.completed) = some (decide (ps ≤ req.score) || old.completed)
    ∧ (old.completed = true → ∀ attempts : List (Env × Int),
        ((runCalls db (quizCalls req.user req.courseId req.quizId attempts)).quizEntry
          req.user req.courseId req.quizId).map (fun entry => entry.completed) = some true)
    ∧ ∃ progress progress',
        db.findProgress req.user req.courseId = some progress
        ∧ (submitQuiz db env req).1.findProgress req.user req.courseId = some progress'
        ∧ (progress'.quizzes.filter (fun quiz => quiz.completed)).length
            = (progress.quizzes.filter (fun quiz => quiz.completed)).length
              + (if old.completed = false ∧ ps ≤ req.score then 1 else 0) := by
  refine ⟨?_, ?_, ?_⟩
  · rw [submitQuiz_quizEntry db env req old ps h hps]
    simp only [Option.map_some', Option.some.injEq, QuizProgress.update]
    by_cases hpass : ps ≤ req.score <;> simp [hpass]
  · intro hc attempts
    rw [quizEntry_runCalls req.user req.courseId req.quizId ps attempts db old h hps]
    simp [foldl_quiz_completed ps attempts old hc]
  · obtain ⟨progress, quizIndex, hp, hi, hold⟩ := quizEntry_some db _ _ _ old h
    refine ⟨progress, _, hp, submitQuiz_progresses db env req progress quizIndex ps hp hi hps, ?_⟩
    rw [calculateProgress_quizzes]
    simp only
    have hcount := length_filter_modifyAt (fun quiz : QuizProgress => quiz.completed)
      (fun entry => entry.update req.score ps env.now) progress.quizzes quizIndex old hold
    simp only [QuizProgress.update] at hcount ⊢
    by_cases hpass : ps ≤ req.score <;> by_cases hc : old.completed = true <;>
      simp [hpass, hc] at hcount ⊢ <;> omega

theorem submitQuiz_completed_witness :
    (runCalls Scenario.db (quizCalls 7 10 3 [(Scenario.env 1, 50)])).quizEntry 7 10 3
      = some { quiz := 3, completed := false, score := 50, attempts := 1,
               lastAttemptAt := some 1 }
    ∧ (runCalls Scenario.db (quizCalls 7 10 3 [(Scenario.env 1, 50)])).passingScore 10 3
      = some 70
    ∧ ((submitQuiz (runCalls Scenario.db (quizCalls 7 10 3 [(Scenario.env 1, 50)]))
          (Scenario.env 2) { user := 7, courseId := 10, quizId := 3, score := 85 }).1.quizEntry
          7 10 3).map (fun entry => entry.completed) = some true
    ∧ ((submitQuiz (runCalls Scenario.db (quizCalls 7 10 3 [(Scenario.env 1, 50)]))
          (Scenario.env 2) { user := 7, courseId := 10, quizId := 3, score := 85 }).1.quizEntry
          7 10 3).map (fun entry => entry.attempts) = some 2 :=
  ⟨by decide, by decide,
   (submitQuiz_completed (runCalls Scenario.db (quizCalls 7 10 3 [(Scenario.env 1, 50)]))
     (Scenario.env 2) { user := 7, courseId := 10, quizId := 3, score := 85 }
     { quiz := 3, completed := false, score := 50, attempts := 1, lastAttemptAt := some 1 } 70
     (by decide) (by decide)).1,
   by decide⟩

/-! ## Certificates -/

theorem issueCertificate_of_exists (db : Db) (env : Env) (user course : ObjectId)
    (progress : Progress) (h : (db.findCertificate user course).isSome = true) :
    issueCertificate db env user course progress = (db, true) := by
  obtain ⟨c, hc⟩ := Option.isSome_iff_exists.1 h
  unfold issueCertificate
  simp only [hc]
  split <;> rfl

theorem issueCertificate_certificates (db : Db) (env : Env) (user course : ObjectId)
    (progress : Progress) :
    (issueCertificate db env user course progress).1.certificates = db.certificates
    ∨ (db.findCertificate user course = none
      ∧ ∃ certificate : Certificate, certificate.user = user ∧ certificate.course = course
        ∧ (issueCertificate db env user course progress).1.certificates
            = db.certificates ++ [certificate]) := by
  unfold issueCertificate
  simp only
  split
  · split
    · exact Or.inl rfl
    · rename_i hnone
      split
      · exact Or.inl rfl
      · rename_i db1 certificate hcreate
        have hc := createCertificate_some db db1 env user course certificate hcreate
        refine Or.inr ⟨hnone, certificate, hc.2.2.2.2.2.1, hc.2.2.2.2.2.2, ?_⟩
        split
        · exact hc.2.2.2.1
        · exact hc.2.2.2.1
  · exact Or.inl rfl

theorem updateLessonProgress_certificates (db : Db) (env : Env) (req : LessonRequest) :
    (updateLessonProgress db env req).1.certificates = db.certificates
    ∨ (db.findCertificate req.user req.courseId = none
      ∧ ∃ certificate : Certificate,
        certificate.user = req.user ∧ certificate.course = req.courseId
        ∧ (updateLessonProgress db env req).1.certificates
            = db.certificates ++ [certificate]) := by
  unfold updateLessonProgress
  split
  · exact Or.inl rfl
  · rename_i progress hp
    split
    · exact Or.inl rfl
    · rename_i lessonIndex hi
      simp only
      generalize ({ progress with
        lessons := modifyAt (fun entry => entry.update req.completed req.timeSpent env.now)
          lessonIndex progress.lessons,
        lastAccessedAt := env.now } : Progress).calculateProgress.1 = q
      have hiss := issueCertificate_certificates (db.saveProgress req.user req.courseId q) env
        req.user req.courseId q
      have hsame : (db.saveProgress req.user req.courseId q).certificates = db.certificates := rfl
      have hfind : (db.saveProgress req.user req.courseId q).findCertificate req.user req.courseId
          = db.findCertificate req.user req.courseId := rfl
      rw [hsame, hfind] at hiss
      split
      · rename_i db2 h2
        rw [h2] at hiss
        exact hiss
      · rename_i db2 h2
        rw [h2] at hiss
        exact hiss

theorem certificatesFor_append (db : Db) (user course : ObjectId) (certificate : Certificate)
    (certificates : List Certificate) (h : certificates = db.certificates ++ [certificate])
    (hle : (db.certificatesFor user course).length ≤ 1)
    (hnone : db.findCertificate certificate.user certificate.course = none) :
    (certificates.filter (fun c => c.user == user && c.course == course)).length ≤ 1 := by
  subst h
  rw [List.filter_append]
  by_cases hm : (certificate.user == user && certificate.course == course) = true
  · have hu : certificate.user = user := by
      simp only [Bool.and_eq_true, beq_iff_eq] at hm
      exact hm.1
    have hc : certificate.course = course := by
      simp only [Bool.and_eq_true, beq_iff_eq] at hm
      exact hm.2
    rw [hu, hc] at hnone
    have hnil : db.certificates.filter (fun c => c.user == user && c.course == course) = [] := by
      rw [List.filter_eq_nil_iff]
      intro a ha
      exact List.find?_eq_none.1 hnone a ha
    simp [hnil, List.filter_cons]
    split <;> simp
  · simp only [Bool.not_eq_true] at hm
    have hnil : [certificate].filter (fun c => c.user == user && c.course == course) = [] := by
      simp [List.filter_cons, hm]
    rw [hnil, List.append_nil]
    exact hle

theorem updateLessonProgress_certificatesFor (db : Db) (env : Env) (req : LessonRequest)
    (user course : ObjectId) (hle : (db.certificatesFor user course).length ≤ 1) :
    ((updateLessonProgress db env req).1.certificatesFor user course).length ≤ 1 := by
  rcases updateLessonProgress_certificates db env req with hsame | ⟨hnone, certificate, hu, hc, happ⟩
  · unfold Db.certificatesFor at hle ⊢
    rw [hsame]
    exact hle
  · unfold Db.certificatesFor
    apply certificatesFor_append db user course certificate _ happ hle
    rw [hu, hc]
    exact hnone

theorem runCalls_lesson_certificatesFor (user course : ObjectId) :
    ∀ (calls : List (Env × LessonRequest)) (db : Db),
      (db.certificatesFor user course).length ≤ 1 →
      ((runCalls db (calls.map (fun c => (c.1, Call.lesson c.2)))).certificatesFor
        user course).length ≤ 1 := by
  intro calls
  induction calls with
  | nil => intro db h; simpa [runCalls] using h
  | cons c rest ih =>
    intro db h
    have hstep := updateLessonProgress_certificatesFor db c.1 c.2 user course h
    have := ih _ hstep
    simpa [runCalls, Call.handle] using this

theorem updateLessonProgress_of_certified (db : Db) (env : Env) (req : LessonRequest)
    (h : (db.findCertificate req.user req.courseId).isSome = true) :
    (updateLessonProgress db env req).1.certificates = db.certificates
    ∧ (updateLessonProgress db env req).1.users = db.users
    ∧ ((db.lessonEntry req.user req.courseId req.lessonId).isSome = true →
        (updateLessonProgress db env req).2.status = 200) := by
  unfold updateLessonProgress Db.lessonEntry
  split
  · simp
  · rename_i progress hp
    split
    · simp
    · rename_i lessonIndex hi
      simp only
      generalize ({ progress with
        lessons := modifyAt (fun entry => entry.update req.completed req.timeSpent env.now)
          lessonIndex progress.lessons,
        lastAccessedAt := env.now } : Progress).calculateProgress.1 = q
      have hfind : ((db.saveProgress req.user req.courseId q).findCertificate
          req.user req.courseId).isSome = true := h
      rw [issueCertificate_of_exists _ env req.user req.courseId q hfind]
      exact ⟨rfl, rfl, fun _ => rfl⟩

/-- C4: over every sequence of `updateLessonProgress` calls, a learner/course pair that starts
with at most one certificate ends with at most one; and in the state reached, a call for the pair
made while a certificate for it exists leaves the certificate collection and every user document
(so the user's `certificates` list) as they were and is answered with status 200 when its lesson
is an entry of the record. -/
theorem updateLessonProgress_certificate_unique (db : Db) (user course : ObjectId)
    (h : (db.certificatesFor user course).length ≤ 1) (calls : List (Env × LessonRequest)) :
    ((runCalls db (calls.map (fun c => (c.1, Call.lesson c.2)))).certificatesFor
        user course).length ≤ 1
    ∧ ∀ (env : Env) (req : LessonRequest), req.user = user → req.courseId = course →
        ((runCalls db (calls.map (fun c => (c.1, Call.lesson c.2)))).findCertificate
          user course).isSome = true →
        (updateLessonProgress (runCalls db (calls.map (fun c => (c.1, Call.lesson c.2))))
            env req).1.certificates
          = (runCalls db (calls.map (fun c => (c.1, Call.lesson c.2)))).certificates
        ∧ (updateLessonProgress (runCalls db (calls.map (fun c => (c.1, Call.lesson c.2))))
            env req).1.users
          = (runCalls db (calls.map (fun c => (c.1, Call.lesson c.2)))).users
        ∧ (((runCalls db (calls.map (fun c => (c.1, Call.lesson c.2)))).lessonEntry
              user course req.lessonId).isSome = true →
            (updateLessonProgress (runCalls db (calls.map (fun c => (c.1, Call.lesson c.2))))
              env req).2.status = 200) := by
  refine ⟨runCalls_lesson_certificatesFor user course calls db h, ?_⟩
  intro env req hu hc hcert
  subst hu
  subst hc
  exact updateLessonProgress_of_certified _ env req hcert

theorem updateLessonProgress_certificate_unique_witness :
    ((Scenario.dbOf
        [{ lesson := 1, completed := false, completedAt := none, timeSpent := 0 }] [] 0
      ).certificatesFor 7 10).length ≤ 1
    ∧ ((runCalls
        (Scenario.dbOf
          [{ lesson := 1, completed := false, completedAt := none, timeSpent := 0 }] [] 0)
        ([(Scenario.env 1,
            ({ user := 7, courseId := 10, lessonId := 1, completed := some true,
               timeSpent := some 30 } : LessonRequest))].map
          (fun c => (c.1, Call.lesson c.2)))).certificatesFor 7 10).length = 1
    ∧ (updateLessonProgress
        (runCalls
          (Scenario.dbOf
            [{ lesson := 1, completed := false, completedAt := none, timeSpent := 0 }] [] 0)
          ([(Scenario.env 1,
              ({ user := 7, courseId := 10, lessonId := 1, completed := some true,
                 timeSpent := some 30 } : LessonRequest))].map
            (fun c => (c.1, Call.lesson c.2))))
        (Scenario.env 2)
        { user := 7, courseId := 10, lessonId := 1, completed := some true,
          timeSpent := some 30 }).1.certificates
      = (runCalls
          (Scenario.dbOf
            [{ lesson := 1, completed := false, completedAt := none, timeSpent := 0 }] [] 0)
          ([(Scenario.env 1,
              ({ user := 7, courseId := 10, lessonId := 1, completed := some true,
                 timeSpent := some 30 } : LessonRequest))].map
            (fun c => (c.1, Call.lesson c.2)))).certificates
    ∧ (updateLessonProgress
        (runCalls
          (Scenario.dbOf
            [{ lesson := 1, completed := false, completedAt := none, timeSpent := 0 }] [] 0)
          ([(Scenario.env 1,
              ({ user := 7, courseId := 10, lessonId := 1, completed := some true,
                 timeSpent := some 30 } : LessonRequest))].map
            (fun c => (c.1, Call.lesson c.2))))
        (Scenario.env 2)
        { user := 7, courseId := 10, lessonId := 1, completed := some true,
          timeSpent := some 30 }).2.status = 200 :=
  ⟨by decide, by decide,
   ((updateLessonProgress_certificate_unique _ 7 10 (by decide) _).2 (Scenario.env 2)
      { user := 7, courseId := 10, lessonId := 1, completed := some true,
        timeSpent := some 30 } rfl rfl (by decide)).1,
   ((updateLessonProgress_certificate_unique _ 7 10 (by decide) _).2 (Scenario.env 2)
      { user := 7, courseId := 10, lessonId := 1, completed := some true,
        timeSpent := some 30 } rfl rfl (by decide)).2.2 (by decide)⟩

/-! ## The aggregate percentage and the certificate trigger -/

/-- C1: with 23 of 40 entries completed the exact percentage is 57.5, which rounds to 58 (half
up and half to even alike), but `calculateProgress` stores 57, both when called on the record
and when `updateLessonProgress` completes the 23rd lesson: `23 / 40` and its product with 100
are each rounded to a binary64 value, and the product comes out just below 57.5. -/
theorem calculateProgress_rounds_below_half :
    ((Scenario.fortyLessons 23 0).findProgress 7 10).map
        (fun p => (p.completedItems, p.totalItems, p.calculateProgress.1.overallProgress))
      = some (23, 40, 57)
    ∧ ((updateLessonProgress (Scenario.fortyLessons 22 55) (Scenario.env 1)
          { user := 7, courseId := 10, lessonId := 23, completed := some true,
            timeSpent := none }).1.findProgress 7 10).map
        (fun p => (p.completedItems, p.totalItems, p.overallProgress))
      = some (23, 40, 57)
    ∧ Spec.overallProgressPercent 23 40 = 58
    ∧ Spec.overallProgressPercentHalfEven 23 40 = 58 := by
  decide

/-- C3: in the two-lesson, one-quiz course the learner completes both lessons (33, then 67) and
then passes the quiz with 80: `overallProgress` is 100 after that call, yet no certificate
exists and the user's list is empty, because `submitQuiz` has no issuing step. When the same three
calls arrive with the quiz first, the last call is `updateLessonProgress` and the certificate is
issued. -/
theorem submitQuiz_reaches_100_without_certificate :
    ((runCalls Scenario.db
        [(Scenario.env 1, Call.lesson
            { user := 7, courseId := 10, lessonId := 1, completed := some true,
              timeSpent := some 120 })]).findProgress 7 10).map
        (fun p => p.overallProgress) = some 33
    ∧ ((runCalls Scenario.db
        [(Scenario.env 1, Call.lesson
            { user := 7, courseId := 10, lessonId := 1, completed := some true,
              timeSpent := some 120 }),
         (Scenario.env 2, Call.lesson
            { user := 7, courseId := 10, lessonId := 2, completed := some true,
              timeSpent := none })]).findProgress 7 10).map
        (fun p => p.overallProgress) = some 67
    ∧ ((runCalls Scenario.db
        [(Scenario.env 1, Call.lesson
            { user := 7, courseId := 10, lessonId := 1, completed := some true,
              timeSpent := some 120 }),
         (Scenario.env 2, Call.lesson
            { user := 7, courseId := 10, lessonId := 2, completed := some true,
              timeSpent := none }),
         (Scenario.env 3, Call.quiz
            { user := 7, courseId := 10, quizId := 3, score := 80 })]).findProgress 7 10).map
        (fun p => p.overallProgress) = some 100
    ∧ (runCalls Scenario.db
        [(Scenario.env 1, Call.lesson
            { user := 7, courseId := 10, lessonId := 1, completed := some true,
              timeSpent := some 120 }),
         (Scenario.env 2, Call.lesson
            { user := 7, courseId := 10, lessonId := 2, completed := some true,
              timeSpent := none }),
         (Scenario.env 3, Call.quiz
            { user := 7, courseId := 10, quizId := 3, score := 80 })]).certificates = []
    ∧ ((runCalls Scenario.db
        [(Scenario.env 1, Call.quiz
            { user := 7, courseId := 10, quizId := 3, score := 80 }),
         (Scenario.env 2, Call.lesson
            { user := 7, courseId := 10, lessonId := 1, completed := some true,
              timeSpent := some 120 }),
         (Scenario.env 3, Call.lesson
            { user := 7, courseId := 10, lessonId := 2, completed := some true,
              timeSpent := none })]).certificatesFor 7 10).length = 1 := by
  decide

/-! ## Bounds on the binary64 arithmetic -/

theorem roundTiesToEven_le (p q n : Nat) (hq : 0 < q) (h : p ≤ n * q) :
    roundTiesToEven p q ≤ n := by
  have hdiv : p / q ≤ n := by
    apply Nat.div_le_of_le_mul
    rw [Nat.mul_comm]
    exact h
  have hsucc : 0 < p % q → p / q + 1 ≤ n := by
    intro hr
    by_contra hlt
    have hn : n ≤ p / q := by omega
    have h1 : n * q ≤ p / q * q := Nat.mul_le_mul_right q hn
    have h2 : q * (p / q) + p % q = p := Nat.div_add_mod p q
    have h3 : p / q * q = q * (p / q) := Nat.mul_comm _ _
    omega
  unfold roundTiesToEven
  split
  · exact hdiv
  · split
    · apply hsucc
      omega
    · split
      · exact hdiv
      · apply hsucc
        omega

theorem ofQuotient_le (p q n : Nat) (hq : 0 < q) (h : p ≤ n * q) :
    (Double.ofQuotient p q).mant ≤ n * 2 ^ (Double.ofQuotient p q).scale := by
  unfold Double.ofQuotient
  split
  · exact Nat.zero_le _
  · simp only
    apply roundTiesToEven_le _ _ _ hq
    calc p * 2 ^ _ ≤ n * q * 2 ^ _ := Nat.mul_le_mul_right _ h
      _ = n * 2 ^ _ * q := by ring

theorem round_percent_le (completedItems totalItems : Nat) (ht : 0 < totalItems)
    (hle : completedItems ≤ totalItems) :
    Math.round ((Double.divNat completedItems totalItems).mulNat 100) ≤ 100 := by
  have hx := ofQuotient_le completedItems totalItems 1 ht (by omega)
  have hy := ofQuotient_le ((Double.ofQuotient completedItems totalItems).mant * 100)
    (2 ^ (Double.ofQuotient completedItems totalItems).scale) 100 (Nat.two_pow_pos _)
    (by
      have := Nat.mul_le_mul_right 100 hx
      calc (Double.ofQuotient completedItems totalItems).mant * 100
          ≤ 1 * 2 ^ (Double.ofQuotient completedItems totalItems).scale * 100 := this
        _ = 100 * 2 ^ (Double.ofQuotient completedItems totalItems).scale := by ring)
  unfold Double.divNat Double.mulNat Math.round
  generalize Double.ofQuotient ((Double.ofQuotient completedItems totalItems).mant * 100)
    (2 ^ (Double.ofQuotient completedItems totalItems).scale) = y at hy ⊢
  have hpos : 0 < 2 ^ (y.scale + 1) := Nat.two_pow_pos _
  have hlt : (2 * y.mant + 2 ^ y.scale) / 2 ^ (y.scale + 1) < 101 := by
    rw [Nat.div_lt_iff_lt_mul hpos]
    have hpow : 2 ^ (y.scale + 1) = 2 * 2 ^ y.scale := by rw [Nat.pow_succ, Nat.mul_comm]
    have hp : 0 < 2 ^ y.scale := Nat.two_pow_pos _
    omega
  omega

theorem completedItems_le_totalItems (p : Progress) : p.completedItems ≤ p.totalItems := by
  unfold Progress.completedItems Progress.totalItems
  have h1 := List.length_filter_le (fun lesson : LessonProgress => lesson.completed) p.lessons
  have h2 := List.length_filter_le (fun quiz : QuizProgress => quiz.completed) p.quizzes
  have h3 := List.length_filter_le
    (fun assignment : AssignmentProgress => assignment.submitted) p.assignments
  omega

/-- C12: after `calculateProgress` on a record with at least one item, the stored
`overallProgress` is a natural number between 0 and 100, and it is the number returned. -/
theorem calculateProgress_bounds (p : Progress) (h : 0 < p.totalItems) :
    0 ≤ p.calculateProgress.1.overallProgress
    ∧ p.calculateProgress.1.overallProgress ≤ 100
    ∧ p.calculateProgress.2 = p.calculateProgress.1.overallProgress := by
  have hne : ¬ p.totalItems = 0 := by omega
  unfold Progress.calculateProgress
  rw [if_neg hne]
  exact ⟨Nat.zero_le _, round_percent_le _ _ h (completedItems_le_totalItems p), rfl⟩

theorem calculateProgress_bounds_witness :
    0 < (Progress.mk 7 10
        [{ lesson := 1, completed := true, completedAt := some 1, timeSpent := 0 },
         { lesson := 2, completed := false, completedAt := none, timeSpent := 0 }]
        [{ quiz := 3, completed := false, score := 0, attempts := 0, lastAttemptAt := none }]
        [] 0 0).totalItems
    ∧ (Progress.mk 7 10
        [{ lesson := 1, completed := true, completedAt := some 1, timeSpent := 0 },
         { lesson := 2, completed := false, completedAt := none, timeSpent := 0 }]
        [{ quiz := 3, completed := false, score := 0, attempts := 0, lastAttemptAt := none }]
        [] 0 0).calculateProgress.1.overallProgress ≤ 100 :=
  ⟨by decide, (calculateProgress_bounds _ (by decide)).2.1⟩

/-! ## Lesson entries: the completion time -/

theorem countCorrect_eq (answers : List (Option Int)) :
    ∀ (questions : List Question) (index score : Nat),
      countCorrect answers index questions score
        = score + ((List.range questions.length).filter (fun i =>
            match questions[i]? with
            | some question => answers.getD (index + i) none == some question.correctAnswer
            | none => false)).length := by
  intro questions
  induction questions with
  | nil => intro index score; simp [countCorrect]
  | cons question rest ih =>
    intro index score
    rw [countCorrect, ih, List.length_cons, List.range_succ_eq_map, List.filter_cons,
      List.filter_map]
    have hfun : ((fun i =>
          match (question :: rest)[i]? with
          | some question => answers.getD (index + i) none == some question.correctAnswer
          | none => false) ∘ Nat.succ)
        = (fun i =>
          match rest[i]? with
          | some question => answers.getD (index + 1 + i) none == some question.correctAnswer
          | none => false) := by
      funext i
      have hidx : index + (i + 1) = index + 1 + i := by omega
      simp [Function.comp, hidx]
    rw [hfun]
    by_cases hq : (answers.getD index none == some question.correctAnswer) = true
    · simp only [List.getElem?_cons_zero, Nat.add_zero, hq, if_true, List.length_cons,
        List.length_map]
      omega
    · simp only [List.getElem?_cons_zero, Nat.add_zero, hq, if_false, List.length_map,
        Bool.false_eq_true]

theorem scorer_ok (db : Db) (env : Env) (req : ScoreRequest) (quiz : Quiz)
    (present : List (Option Int)) (hq : db.findQuiz req.id = some quiz)
    (ha : req.answers = some present) :
    (Quizzes.submitQuiz db env req).2
      = { status := 200, success := true, message := none,
          data := some
            { score := (Number.divNat (countCorrect present 0 quiz.questions 0)
                quiz.questions.length).mulNat 100,
              passed := ((Number.divNat (countCorrect present 0 quiz.questions 0)
                quiz.questions.length).mulNat 100).ge quiz.passingScore,
              correctAnswers := countCorrect present 0 quiz.questions 0,
              totalQuestions := quiz.questions.length } } := by
  unfold Quizzes.submitQuiz
  simp only [hq, ha, scoreAnswers]

/-- C13, as stated, fails: on a quiz with three questions a request without `answers` makes the
scoring loop throw at `answers[0]`; the handler answers 500 and reports no count. -/
theorem scorer_absent_answers_throws :
    (Quizzes.submitQuiz (Scenario.catalog 3 70) (Scenario.env 1)
        { user := 8, id := 20, answers := none }).2
      = { status := 500, success := false, message := none, data := none } := by
  decide

/-- C13, amended: for every answer set that is present, the scorer answers 200 and its
`correctAnswers` is the number of indices `i` in `[0, totalQuestions)` with
`answers[i] === questions[i].correctAnswer`, so an index without a submitted answer counts as
incorrect (an empty answer set scores 0 of `totalQuestions`). -/
theorem scorer_correctAnswers (db : Db) (env : Env) (req : ScoreRequest) (quiz : Quiz)
    (present : List (Option Int)) (hq : db.findQuiz req.id = some quiz)
    (ha : req.answers = some present) :
    (Quizzes.submitQuiz db env req).2.status = 200
    ∧ (Quizzes.submitQuiz db env req).2.data.map
        (fun d => (d.correctAnswers, d.totalQuestions))
      = some (Spec.correctCount present quiz.questions, quiz.questions.length)
    ∧ (present = [] → (Quizzes.submitQuiz db env req).2.data.map (fun d => d.correctAnswers)
        = some 0) := by
  rw [scorer_ok db env req quiz present hq ha]
  have hcount : countCorrect present 0 quiz.questions 0 = Spec.correctCount present quiz.questions := by
    rw [countCorrect_eq]
    simp [Spec.correctCount]
  refine ⟨rfl, ?_, ?_⟩
  · simp [hcount]
  · intro hnil
    subst hnil
    simp only [Option.map_some', Option.some.injEq]
    rw [countCorrect_eq]
    simp only [Nat.zero_add, List.length_eq_zero, List.filter_eq_nil_iff]
    intro i _
    split <;> simp

theorem scorer_correctAnswers_witness :
    (Scenario.catalog 3 70).findQuiz 20
      = some { _id := 20, course := 10, questions := List.replicate 3 { correctAnswer := 1 },
               passingScore := 70 }
    ∧ (Quizzes.submitQuiz (Scenario.catalog 3 70) (Scenario.env 1)
        { user := 8, id := 20, answers := some [some 1, none, some 1] }).2.data.map
        (fun d => (d.correctAnswers, d.totalQuestions)) = some (2, 3) :=
  ⟨by decide,
   ((scorer_correctAnswers (Scenario.catalog 3 70) (Scenario.env 1)
      { user := 8, id := 20, answers := some [some 1, none, some 1] }
      { _id := 20, course := 10, questions := List.replicate 3 { correctAnswer := 1 },
        passingScore := 70 }
      [some 1, none, some 1] (by decide) rfl).2.1).trans (by decide)⟩

/-- C14: on a quiz of 50 questions with `passingScore = 58`, 29 right answers are exactly 58
percent, yet the scorer reports `score = 8162774324609023 / 2 ^ 47` (printed
57.99999999999999), which is below 58, and `passed = false`; `100 * 29 / 50` evaluates to 58
and the specification's `passed` is true. Likewise 11 right answers of 20 are reported as
`7740561859543041 / 2 ^ 47` (printed 55.00000000000001) where `100 * 11 / 20` is 55. -/
theorem scorer_percentage_off_exact :
    (Quizzes.submitQuiz (Scenario.catalog 50 58) (Scenario.env 1)
        { user := 8, id := 20, answers := some (Scenario.answers 29 21) }).2.data
      = some { score := Number.finite { mant := 8162774324609023, scale := 47 },
               passed := false, correctAnswers := 29, totalQuestions := 50 }
    ∧ Spec.percent 29 50 = Number.finite { mant := 58 * 2 ^ 47, scale := 47 }
    ∧ Spec.passed 29 50 58 = true
    ∧ 8162774324609023 < 58 * 2 ^ 47
    ∧ (Quizzes.submitQuiz (Scenario.catalog 20 55) (Scenario.env 1)
        { user := 8, id := 20, answers := some (Scenario.answers 11 9) }).2.data.map
        (fun d => d.score) = some (Number.finite { mant := 7740561859543041, scale := 47 })
    ∧ Spec.percent 11 20 = Number.finite { mant := 55 * 2 ^ 47, scale := 47 }
    ∧ 55 * 2 ^ 47 < 7740561859543041 := by
  decide

/-- C15: on a quiz without questions the scorer evaluates `0 / 0`: it answers 200 with
`score = NaN` (not 0), `passed = false` and `totalQuestions = 0`, whether the answer set is
empty or absent; no error is raised. -/
theorem scorer_zero_questions_nan :
    (Quizzes.submitQuiz (Scenario.catalog 0 70) (Scenario.env 1)
        { user := 8, id := 20, answers := some [] }).2
      = { status := 200, success := true, message := none,
          data := some { score := Number.nan, passed := false, correctAnswers := 0,
                         totalQuestions := 0 } }
    ∧ (Quizzes.submitQuiz (Scenario.catalog 0 70) (Scenario.env 1)
        { user := 8, id := 20, answers := none }).2
      = { status := 200, success := true, message := none,
          data := some { score := Number.nan, passed := false, correctAnswers := 0,
                         totalQuestions := 0 } } := by
  decide

theorem any_enrolled_iff (enrollments : List ObjectId) (user : ObjectId) :
    enrollments.any (fun student => student == user) = true ↔ user ∈ enrollments := by
  simp [List.any_eq_true]

/-- C17: from a database where the student `8` has no progress record and is not enrolled, a
scorer call for a quiz of course `10` followed by `enrollCourse` for that course leaves two
progress records for the pair `(8, 10)`: the empty one inserted by the scorer's upsert and the
seeded one created by `enrollCourse`, which does not look for an existing record as
`getProgress` does. A later `getProgress` returns the first, empty record. -/
theorem enrollCourse_after_scorer_duplicates :
    ((Scenario.catalog 3 70).progressesFor 8 10).length = 0
    ∧ ((runAccessCalls (Scenario.catalog 3 70)
        [(Scenario.env 1, AccessCall.submitQuiz
            { user := 8, id := 20, answers := some [some 1, some 1, some 0] }),
         (Scenario.env 2, AccessCall.enrollCourse
            { user := 8, courseId := 10 })]).progressesFor 8 10).length = 2
    ∧ (getProgress
        (runAccessCalls (Scenario.catalog 3 70)
          [(Scenario.env 1, AccessCall.submitQuiz
              { user := 8, id := 20, answers := some [some 1, some 1, some 0] }),
           (Scenario.env 2, AccessCall.enrollCourse { user := 8, courseId := 10 })])
        (Scenario.env 3) { user := 8, courseId := 10 }).2.data
      = some { user := 8, course := 10, lessons := [], quizzes := [], assignments := [],
               overallProgress := 0, lastAccessedAt := 1 } := by
  decide

/-- C18: `getProgress` answers 404 when the course does not exist and 403 when it exists but
the requesting user is not a student of `course.enrollments`, in both cases leaving the database
as it was; it answers 200 exactly when the course exists and the user's id is among
`course.enrollments`. -/
theorem getProgress_gate (db : Db) (env : Env) (req : CourseRequest) :
    (db.findCourse req.courseId = none →
      (getProgress db env req).2.status = 404 ∧ (getProgress db env req).1 = db)
    ∧ (∀ course, db.findCourse req.courseId = some course → req.user ∉ course.enrollments →
      (getProgress db env req).2.status = 403 ∧ (getProgress db env req).1 = db)
    ∧ ((getProgress db env req).2.status = 200 ↔
      ∃ course, db.findCourse req.courseId = some course ∧ req.user ∈ course.enrollments) := by
  unfold getProgress
  cases hc : db.findCourse req.courseId with
  | none => simp [Response.notFound]
  | some course =>
    by_cases hmem : req.user ∈ course.enrollments
    · have hany := (any_enrolled_iff course.enrollments req.user).2 hmem
      simp only [hany, if_true]
      refine ⟨fun h => absurd h (by simp), fun c hcc hnot => ?_, ?_⟩
      · rw [← Option.some.inj hcc] at hnot
        exact absurd hmem hnot
      · constructor
        · intro _
          exact ⟨course, rfl, hmem⟩
        · intro _
          split <;> rfl
    · have hany : course.enrollments.any (fun student => student == req.user) = false := by
        rw [Bool.eq_false_iff]
        exact fun h => hmem ((any_enrolled_iff _ _).1 h)
      simp only [hany]
      refine ⟨fun h => absurd h (by simp), fun _ _ _ => ⟨rfl, rfl⟩, ?_⟩
      constructor
      · intro h
        simp [Response.forbidden] at h
      · rintro ⟨c, hcc, hin⟩
        rw [← Option.some.inj hcc] at hin
        exact absurd hin hmem

theorem getProgress_gate_witness :
    (Scenario.catalog 3 70).findCourse 11 = none
    ∧ (getProgress (Scenario.catalog 3 70) (Scenario.env 1) { user := 8, courseId := 11 }).2.status
        = 404
    ∧ (getProgress (Scenario.catalog 3 70) (Scenario.env 1) { user := 8, courseId := 10 }).2.status
        = 403
    ∧ (getProgress (Scenario.catalog 3 70) (Scenario.env 1) { user := 8, courseId := 10 }).1
        = Scenario.catalog 3 70
    ∧ (getProgress Scenario.db (Scenario.env 1) { user := 7, courseId := 10 }).2.status = 200 :=
  ⟨by decide,
   ((getProgress_gate (Scenario.catalog 3 70) (Scenario.env 1)
      { user := 8, courseId := 11 }).1 (by decide)).1,
   ((getProgress_gate (Scenario.catalog 3 70) (Scenario.env 1)
      { user := 8, courseId := 10 }).2.1 { Scenario.course with enrollments := [] }
      (by decide) (by decide)).1,
   ((getProgress_gate (Scenario.catalog 3 70) (Scenario.env 1)
      { user := 8, courseId := 10 }).2.1 { Scenario.course with enrollments := [] }
      (by decide) (by decide)).2,
   (getProgress_gate Scenario.db (Scenario.env 1) { user := 7, courseId := 10 }).2.2.2
     ⟨Scenario.course, by decide, by decide⟩⟩

theorem map_map_left_inverse {α β : Type} (f : α → β) (g : β → α) (h : ∀ a, g (f a) = a) :
    ∀ l : List α, (l.map f).map g = l := by
  intro l
  induction l with
  | nil => rfl
  | cons a as ih => simp [h, ih]

theorem create_notStarted (user courseId : ObjectId) (course : Course) (now : Timestamp) :
    Spec.NotStarted (Progress.create user courseId course now) user courseId course := by
  unfold Spec.NotStarted Progress.create
  refine ⟨rfl, rfl, ?_, ?_, ?_, ?_, ?_, ?_, rfl⟩
  · exact map_map_left_inverse _ _ (fun _ => rfl) _
  · intro entry hentry
    obtain ⟨id, -, rfl⟩ := List.mem_map.1 hentry
    exact ⟨rfl, rfl, rfl⟩
  · simp [List.map_map, Function.comp]
  · intro entry hentry
    obtain ⟨quiz, -, rfl⟩ := List.mem_map.1 hentry
    exact ⟨rfl, rfl, rfl, rfl⟩
  · exact map_map_left_inverse _ _ (fun _ => rfl) _
  · intro entry hentry
    obtain ⟨id, -, rfl⟩ := List.mem_map.1 hentry
    exact ⟨rfl, rfl, rfl, rfl⟩

theorem getProgress_of_found (db : Db) (env : Env) (req : CourseRequest) (course : Course)
    (progress : Progress) (hc : db.findCourse req.courseId = some course)
    (hmem : req.user ∈ course.enrollments)
    (hp : db.findProgress req.user req.courseId = some progress) :
    getProgress db env req = (db, Response.ok progress) := by
  unfold getProgress
  simp only [hc, (any_enrolled_iff course.enrollments req.user).2 hmem, if_true, hp]

theorem getProgress_of_missing (db : Db) (env : Env) (req : CourseRequest) (course : Course)
    (hc : db.findCourse req.courseId = some course) (hmem : req.user ∈ course.enrollments)
    (hp : db.findProgress req.user req.courseId = none) :
    getProgress db env req
      = (db.insertProgress (Progress.create req.user req.courseId course env.now),
         Response.ok (Progress.create req.user req.courseId course env.now)) := by
  unfold getProgress
  simp only [hc, (any_enrolled_iff course.enrollments req.user).2 hmem, if_true, hp]

theorem findProgress_insertProgress (db : Db) (user course : ObjectId) (record : Progress)
    (hp : db.findProgress user course = none) (hu : record.user = user)
    (hc : record.course = course) :
    (db.insertProgress record).findProgress user course = some record := by
  unfold Db.findProgress at hp ⊢
  unfold Db.insertProgress
  simp only [List.find?_append, hp, Option.none_or]
  simp [List.find?, hu, hc]

/-- C19: when `getProgress` creates a record (course found, user among its enrollments, no
record stored for the pair) and when `enrollCourse` creates one (course and user found, course
not among the user's `enrolledCourses`), the record is appended to the collection and is the
"not started" record of the course: one entry per lesson, quiz and assignment with the same ids
in the same order, nothing completed or submitted, `attempts = 0`, `timeSpent = 0`, and
`overallProgress = 0`. -/
theorem created_record_not_started (db : Db) (env : Env) (req : CourseRequest) (course : Course)
    (hc : db.findCourse req.courseId = some course) :
    (req.user ∈ course.enrollments → db.findProgress req.user req.courseId = none →
      ∃ record, (getProgress db env req).1.progresses = db.progresses ++ [record]
        ∧ (getProgress db env req).2.data = some record
        ∧ Spec.NotStarted record req.user req.courseId course)
    ∧ (∀ user, db.findUser req.user = some user → req.courseId ∉ user.enrolledCourses →
      ∃ record, (enrollCourse db env req).1.progresses = db.progresses ++ [record]
        ∧ Spec.NotStarted record req.user req.courseId course) := by
  constructor
  · intro hmem hp
    rw [getProgress_of_missing db env req course hc hmem hp]
    exact ⟨_, rfl, rfl, create_notStarted _ _ _ _⟩
  · intro user hu hnot
    have hany : user.enrolledCourses.any (fun enrolled => enrolled == req.courseId) = false := by
      rw [Bool.eq_false_iff]
      intro h
      apply hnot
      simpa [List.any_eq_true] using h
    unfold enrollCourse
    simp only [hc, hu, hany]
    refine ⟨_, rfl, ?_⟩
    have h := create_notStarted req.user req.courseId
      { course with enrollments := course.enrollments ++ [req.user] } env.now
    exact h

theorem created_record_not_started_witness :
    (Scenario.catalog 3 70).findCourse 10 = some { Scenario.course with enrollments := [] }
    ∧ (Scenario.catalog 3 70).findUser 8 = some { _id := 8, certificates := [] }
    ∧ ∃ record, (enrollCourse (Scenario.catalog 3 70) (Scenario.env 1)
          { user := 8, courseId := 10 }).1.progresses
          = (Scenario.catalog 3 70).progresses ++ [record]
        ∧ Spec.NotStarted record 8 10 { Scenario.course with enrollments := [] } :=
  ⟨by decide, by decide,
   (created_record_not_started (Scenario.catalog 3 70) (Scenario.env 1)
      { user := 8, courseId := 10 } { Scenario.course with enrollments := [] }
      (by decide)).2 { _id := 8, certificates := [] } (by decide) (by decide)⟩

/-- C20: when a `getProgress` call is answered with status 200, a second call with the same
request, at any later time, leaves the database exactly as the first call left it and returns
the same answer, hence the same record. -/
theorem getProgress_idempotent (db : Db) (env1 env2 : Env) (req : CourseRequest)
    (h : (getProgress db env1 req).2.status = 200) :
    getProgress (getProgress db env1 req).1 env2 req
      = ((getProgress db env1 req).1, (getProgress db env1 req).2) := by
  obtain ⟨course, hc, hmem⟩ := (getProgress_gate db env1 req).2.2.1 h
  cases hp : db.findProgress req.user req.courseId with
  | some progress =>
    rw [getProgress_of_found db env1 req course progress hc hmem hp]
    exact getProgress_of_found db env2 req course progress hc hmem hp
  | none =>
    rw [getProgress_of_missing db env1 req course hc hmem hp]
    exact getProgress_of_found
      (db.insertProgress (Progress.create req.user req.courseId course env1.now)) env2 req course
      _ hc hmem (findProgress_insertProgress db req.user req.courseId _ hp rfl rfl)

theorem getProgress_idempotent_witness :
    (getProgress { Scenario.db with progresses := [] } (Scenario.env 1)
        { user := 7, courseId := 10 }).2.status = 200
    ∧ ({ Scenario.db with progresses := [] } : Db).progresses.length = 0
    ∧ (getProgress { Scenario.db with progresses := [] } (Scenario.env 1)
        { user := 7, courseId := 10 }).1.progresses.length = 1
    ∧ getProgress
        (getProgress { Scenario.db with progresses := [] } (Scenario.env 1)
          { user := 7, courseId := 10 }).1
        (Scenario.env 2) { user := 7, courseId := 10 }
      = ((getProgress { Scenario.db with progresses := [] } (Scenario.env 1)
            { user := 7, courseId := 10 }).1,
         (getProgress { Scenario.db with progresses := [] } (Scenario.env 1)
            { user := 7, courseId := 10 }).2) :=
  ⟨by decide, by decide, by decide,
   getProgress_idempotent _ (Scenario.env 1) (Scenario.env 2) _ (by decide)⟩

/-! ## Unknown entries -/

/-- C22: when the caller's record exists and the given lesson, quiz or assignment id is not one
of its entries, `updateLessonProgress`, `submitQuiz` and `submitAssignment` answer 404 and leave
the whole database, hence the record with its `attempts`, `lastAccessedAt` and
`overallProgress`, as it was; so does `gradeAssignment` for a caller who is the course's
instructor or an admin, and for any caller it leaves the database as it was. -/
theorem unknown_entry_not_found (db : Db) (env : Env) (progress : Progress) :
    (∀ req : LessonRequest, db.findProgress req.user req.courseId = some progress →
      findIndex (fun entry => entry.lesson == req.lessonId) progress.lessons = none →
      updateLessonProgress db env req = (db, Response.notFound "Lesson not found in progress"))
    ∧ (∀ req : QuizRequest, db.findProgress req.user req.courseId = some progress →
      findIndex (fun entry => entry.quiz == req.quizId) progress.quizzes = none →
      submitQuiz db env req = (db, Response.notFound "Quiz not found in progress"))
    ∧ (∀ req : AssignmentRequest, db.findProgress req.user req.courseId = some progress →
      findIndex (fun entry => entry.assignment == req.assignmentId) progress.assignments = none →
      submitAssignment db env req
        = (db, Response.notFound "Assignment not found in progress"))
    ∧ (∀ (req : GradeRequest) (course : Course),
      db.findProgress req.userId req.courseId = some progress →
      findIndex (fun entry => entry.assignment == req.assignmentId) progress.assignments = none →
      (gradeAssignment db env req).1 = db
      ∧ (db.findCourse req.courseId = some course →
          course.instructor = req.user ∨ req.role = "admin" →
          gradeAssignment db env req
            = (db, Response.notFound "Assignment not found in progress"))) := by
  refine ⟨?_, ?_, ?_, ?_⟩
  · intro req hp hi
    unfold updateLessonProgress
    simp only [hp, hi]
  · intro req hp hi
    unfold submitQuiz
    simp only [hp, hi]
  · intro req hp hi
    unfold submitAssignment
    simp only [hp, hi]
  · intro req course hp hi
    constructor
    · unfold gradeAssignment
      simp only [hp, hi]
      split
      · rfl
      · split <;> rfl
    · intro hc hauth
      have hgate : (course.instructor != req.user && req.role != "admin") = false := by
        rcases hauth with h | h
        · simp [h]
        · simp [h]
      unfold gradeAssignment
      simp only [hc, hgate, hp, hi]
      rfl

theorem unknown_entry_not_found_witness :
    ((Scenario.withAssignments [7]).findProgress 7 10).isSome = true
    ∧ updateLessonProgress (Scenario.withAssignments [7]) (Scenario.env 9)
        { user := 7, courseId := 10, lessonId := 2, completed := some true, timeSpent := none }
      = (Scenario.withAssignments [7], Response.notFound "Lesson not found in progress")
    ∧ submitQuiz (Scenario.withAssignments [7]) (Scenario.env 9)
        { user := 7, courseId := 10, quizId := 8, score := 90 }
      = (Scenario.withAssignments [7], Response.notFound "Quiz not found in progress")
    ∧ submitAssignment (Scenario.withAssignments [7]) (Scenario.env 9)
        { user := 7, courseId := 10, assignmentId := 6, submissionUrl := some "v" }
      = (Scenario.withAssignments [7], Response.notFound "Assignment not found in progress")
    ∧ gradeAssignment (Scenario.withAssignments [7]) (Scenario.env 9)
        { user := 99, role := "instructor", courseId := 10, assignmentId := 6, userId := 7,
          grade := some 90, feedback := none }
      = (Scenario.withAssignments [7], Response.notFound "Assignment not found in progress") :=
  ⟨by decide,
   (unknown_entry_not_found (Scenario.withAssignments [7]) (Scenario.env 9) _).1
     { user := 7, courseId := 10, lessonId := 2, completed := some true, timeSpent := none }
     rfl (by decide),
   (unknown_entry_not_found (Scenario.withAssignments [7]) (Scenario.env 9) _).2.1
     { user := 7, courseId := 10, quizId := 8, score := 90 } rfl (by decide),
   (unknown_entry_not_found (Scenario.withAssignments [7]) (Scenario.env 9) _).2.2.1
     { user := 7, courseId := 10, assignmentId := 6, submissionUrl := some "v" } rfl (by decide),
   ((unknown_entry_not_found (Scenario.withAssignments [7]) (Scenario.env 9) _).2.2.2
     { user := 99, role := "instructor", courseId := 10, assignmentId := 6, userId := 7,
       grade := some 90, feedback := none }
     _ rfl (by decide)).2 rfl (Or.inl rfl)⟩

/-! ## Assignment entries: submission and grading -/

theorem calculateProgress_of_pos (p : Progress) (h : 0 < p.totalItems) :
    p.calculateProgress.1
      = { p with overallProgress :=
            Math.round ((Double.divNat p.completedItems p.totalItems).mulNat 100) } := by
  have hne : ¬ p.totalItems = 0 := by omega
  unfold Progress.calculateProgress
  rw [if_neg hne]

theorem assignmentEntry_some (db : Db) (user course assignment : ObjectId)
    (old : AssignmentProgress) (h : db.assignmentEntry user course assignment = some old) :
    ∃ progress assignmentIndex, db.findProgress user course = some progress
      ∧ findIndex (fun entry => entry.assignment == assignment) progress.assignments
          = some assignmentIndex
      ∧ progress.assignments[assignmentIndex]? = some old := by
  unfold Db.assignmentEntry at h
  cases hp : db.findProgress user course with
  | none => simp [hp] at h
  | some progress =>
    cases hi : findIndex (fun entry => entry.assignment == assignment) progress.assignments with
    | none => simp [hp, hi] at h
    | some assignmentIndex =>
      simp only [hp, hi] at h
      exact ⟨progress, assignmentIndex, rfl, hi, h⟩

theorem getElem?_some_length_pos {α : Type} (l : List α) (i : Nat) (a : α)
    (h : l[i]? = some a) : 0 < l.length := by
  cases l with
  | nil => simp at h
  | cons b bs => simp

/-- C23: `submitAssignment` on a known assignment entry answers 200 with the saved record, in
which the entry has `submitted = true`, the submission reference of the request and, unchanged,
whatever grade it had; the number of completed items of the record is the previous one plus one
when the entry was not yet submitted, and `overallProgress` is recomputed from that number,
with no reference to the grade. -/
theorem submitAssignment_counts (db : Db) (env : Env) (req : AssignmentRequest)
    (old : AssignmentProgress)
    (h : db.assignmentEntry req.user req.courseId req.assignmentId = some old) :
    ∃ progress progress',
      db.findProgress req.user req.courseId = some progress
      ∧ submitAssignment db env req
          = (db.saveProgress req.user req.courseId progress', Response.ok progress')
      ∧ (submitAssignment db env req).1.findProgress req.user req.courseId = some progress'
      ∧ (submitAssignment db env req).1.assignmentEntry req.user req.courseId req.assignmentId
          = some { old with submitted := true, submissionUrl := req.submissionUrl,
                            submittedAt := some env.now }
      ∧ progress'.completedItems
          = progress.completedItems + (if old.submitted = true then 0 else 1)
      ∧ progress'.totalItems = progress.totalItems
      ∧ progress'.overallProgress
          = Math.round ((Double.divNat progress'.completedItems progress'.totalItems).mulNat 100) := by
  obtain ⟨progress, assignmentIndex, hp, hi, hold⟩ := assignmentEntry_some db _ _ _ old h
  obtain ⟨hu, hc⟩ := findProgress_key db _ _ _ hp
  have hlen := getElem?_some_length_pos _ _ _ hold
  generalize hq : ({ progress with
      assignments := modifyAt (fun entry => entry.submit req.submissionUrl env.now)
        assignmentIndex progress.assignments,
      lastAccessedAt := env.now } : Progress) = q
  have hql : q.lessons = progress.lessons := by rw [← hq]
  have hqq : q.quizzes = progress.quizzes := by rw [← hq]
  have hqa : q.assignments = modifyAt (fun entry => entry.submit req.submissionUrl env.now)
      assignmentIndex progress.assignments := by rw [← hq]
  have htotal : q.totalItems = progress.totalItems := by
    unfold Progress.totalItems
    rw [hql, hqq, hqa, length_modifyAt]
  have hpos : 0 < q.totalItems := by
    rw [htotal]
    unfold Progress.totalItems
    omega
  have hcount : q.completedItems
      = progress.completedItems + (if old.submitted = true then 0 else 1) := by
    unfold Progress.completedItems
    rw [hql, hqq, hqa]
    have hcnt := length_filter_modifyAt (fun a : AssignmentProgress => a.submitted)
      (fun entry => entry.submit req.submissionUrl env.now) progress.assignments
      assignmentIndex old hold
    have hsub : (old.submit req.submissionUrl env.now).submitted = true := rfl
    simp only [hsub, if_true] at hcnt
    by_cases hs : old.submitted = true
    · rw [if_pos hs] at hcnt ⊢
      omega
    · rw [if_neg hs] at hcnt ⊢
      omega
  have heq : submitAssignment db env req
      = (db.saveProgress req.user req.courseId q.calculateProgress.1,
         Response.ok q.calculateProgress.1) := by
    unfold submitAssignment
    simp only [hp, hi]
    rw [hq]
  have hfind : (submitAssignment db env req).1.findProgress req.user req.courseId
      = some q.calculateProgress.1 := by
    rw [heq]
    apply findProgress_saveProgress db req.user req.courseId progress _ hp
    · rw [calculateProgress_user, ← hq]; exact hu
    · rw [calculateProgress_course, ← hq]; exact hc
  refine ⟨progress, q.calculateProgress.1, hp, heq, hfind, ?_, ?_, ?_, ?_⟩
  · unfold Db.assignmentEntry
    rw [hfind]
    simp only [calculateProgress_assignments, hqa]
    rw [findIndex_modifyAt _ _ (fun a => by simp [AssignmentProgress.submit]), hi]
    simp only
    rw [getElem?_modifyAt_eq, hold]
    rfl
  · rw [calculateProgress_of_pos q hpos]
    exact hcount
  · rw [calculateProgress_of_pos q hpos]
    exact htotal
  · rw [calculateProgress_of_pos q hpos]
    rfl

theorem submitAssignment_counts_witness :
    (Scenario.withAssignments [7]).assignmentEntry 7 10 5
      = some { assignment := 5, submitted := false, submissionUrl := none, grade := none,
               feedback := none, submittedAt := none, gradedAt := none }
    ∧ (∃ progress progress',
      (Scenario.withAssignments [7]).findProgress 7 10 = some progress
      ∧ submitAssignment (Scenario.withAssignments [7]) (Scenario.env 9)
          { user := 7, courseId := 10, assignmentId := 5, submissionUrl := some "v" }
          = ((Scenario.withAssignments [7]).saveProgress 7 10 progress', Response.ok progress')
      ∧ (submitAssignment (Scenario.withAssignments [7]) (Scenario.env 9)
          { user := 7, courseId := 10, assignmentId := 5, submissionUrl := some "v"
            }).1.findProgress 7 10 = some progress'
      ∧ (submitAssignment (Scenario.withAssignments [7]) (Scenario.env 9)
          { user := 7, courseId := 10, assignmentId := 5, submissionUrl := some "v"
            }).1.assignmentEntry 7 10 5
          = some { assignment := 5, submitted := true, submissionUrl := some "v", grade := none,
                   feedback := none, submittedAt := some 9, gradedAt := none }
      ∧ progress'.completedItems = progress.completedItems + 1
      ∧ progress'.totalItems = progress.totalItems
      ∧ progress'.overallProgress
          = Math.round
              ((Double.divNat progress'.completedItems progress'.totalItems).mulNat 100))
    ∧ ((submitAssignment (Scenario.withAssignments [7]) (Scenario.env 9)
          { user := 7, courseId := 10, assignmentId := 5, submissionUrl := some "v"
            }).1.findProgress 7 10).map (fun p => p.overallProgress) = some 50 :=
  ⟨by decide,
   submitAssignment_counts (Scenario.withAssignments [7]) (Scenario.env 9)
     { user := 7, courseId := 10, assignmentId := 5, submissionUrl := some "v" }
     { assignment := 5, submitted := false, submissionUrl := none, grade := none,
       feedback := none, submittedAt := none, gradedAt := none } (by decide),
   by decide⟩

theorem gradeAssignment_ok (db : Db) (env : Env) (req : GradeRequest)
    (h : (gradeAssignment db env req).2.status = 200) :
    ∃ course progress assignmentIndex,
      db.findCourse req.courseId = some course
      ∧ (course.instructor = req.user ∨ req.role = "admin")
      ∧ db.findProgress req.userId req.courseId = some progress
      ∧ findIndex (fun a => a.assignment == req.assignmentId) progress.assignments
          = some assignmentIndex
      ∧ gradeAssignment db env req
          = (db.saveProgress req.userId req.courseId
              { progress with assignments := modifyAt (fun entry => entry.graded req.grade req.feedback env.now) assignmentIndex progress.assignments },
             Response.ok
              { progress with assignments := modifyAt (fun entry => entry.graded req.grade req.feedback env.now) assignmentIndex progress.assignments }) := by
  unfold gradeAssignment at h ⊢
  cases hc : db.findCourse req.courseId with
  | none => simp [hc, Response.notFound] at h
  | some course =>
    simp only [hc] at h ⊢
    by_cases hgate : (course.instructor != req.user && req.role != "admin") = true
    · simp [hgate, Response.unauthorized] at h
    · simp only [hgate] at h ⊢
      have hauth : course.instructor = req.user ∨ req.role = "admin" := by
        by_contra hcon
        apply hgate
        simp only [not_or] at hcon
        simp [hcon.1, hcon.2]
      cases hp : db.findProgress req.userId req.courseId with
      | none => simp [hp, Response.notFound] at h
      | some progress =>
        simp only [hp] at h ⊢
        cases hi : findIndex (fun a => a.assignment == req.assignmentId)
            progress.assignments with
        | none => simp [hi, Response.notFound] at h
        | some assignmentIndex =>
          exact ⟨course, progress, assignmentIndex, rfl, hauth, rfl, hi, by simp [hi]⟩

/-- C24: a `gradeAssignment` call answered with status 200 writes, in the record of the graded
learner, only `grade`, `feedback` and `gradedAt` of the entry it addresses: `submitted` and the
other fields of that entry, every other assignment entry, the lesson and quiz entries,
`overallProgress` and `lastAccessedAt` are as before, and so are every other progress document
and the other collections. -/
theorem gradeAssignment_frame (db : Db) (env : Env) (req : GradeRequest)
    (h : (gradeAssignment db env req).2.status = 200) :
    ∃ progress assignmentIndex old progress',
      db.findProgress req.userId req.courseId = some progress
      ∧ findIndex (fun a => a.assignment == req.assignmentId) progress.assignments
          = some assignmentIndex
      ∧ progress.assignments[assignmentIndex]? = some old
      ∧ (gradeAssignment db env req).1.findProgress req.userId req.courseId = some progress'
      ∧ progress'.assignments[assignmentIndex]?
          = some { old with grade := req.grade, feedback := req.feedback,
                            gradedAt := some env.now }
      ∧ (∀ j, j ≠ assignmentIndex → progress'.assignments[j]? = progress.assignments[j]?)
      ∧ progress'.lessons = progress.lessons
      ∧ progress'.quizzes = progress.quizzes
      ∧ progress'.overallProgress = progress.overallProgress
      ∧ progress'.lastAccessedAt = progress.lastAccessedAt
      ∧ (∀ k, findIndex (fun p => p.user == req.userId && p.course == req.courseId)
            db.progresses ≠ some k →
          (gradeAssignment db env req).1.progresses[k]? = db.progresses[k]?)
      ∧ (gradeAssignment db env req).1.courses = db.courses
      ∧ (gradeAssignment db env req).1.users = db.users
      ∧ (gradeAssignment db env req).1.certificates = db.certificates := by
  obtain ⟨course, progress, assignmentIndex, -, -, hp, hi, heq⟩ := gradeAssignment_ok db env req h
  obtain ⟨old, hold, -⟩ := findIndex_some _ _ _ hi
  obtain ⟨hu, hc⟩ := findProgress_key db _ _ _ hp
  rw [heq]
  refine ⟨progress, assignmentIndex, old, _, hp, hi, hold,
    findProgress_saveProgress db req.userId req.courseId progress _ hp hu hc,
    ?_, ?_, rfl, rfl, rfl, rfl, ?_, rfl, rfl, rfl⟩
  · simp only
    rw [getElem?_modifyAt_eq, hold]
    rfl
  · intro j hj
    exact getElem?_modifyAt_ne _ _ _ _ hj
  · intro k hk
    exact getElem?_replaceFirst_ne _ _ _ _ hk

theorem gradeAssignment_frame_witness :
    (gradeAssignment (Scenario.withAssignments [7]) (Scenario.env 9)
        { user := 99, role := "instructor", courseId := 10, assignmentId := 4, userId := 7,
          grade := some 90, feedback := some "ok" }).2.status = 200
    ∧ (gradeAssignment (Scenario.withAssignments [7]) (Scenario.env 9)
        { user := 99, role := "instructor", courseId := 10, assignmentId := 4, userId := 7,
          grade := some 90, feedback := some "ok" }).1.assignmentEntry 7 10 4
      = some { assignment := 4, submitted := true, submissionUrl := some "u", grade := some 90,
               feedback := some "ok", submittedAt := some 1, gradedAt := some 9 }
    ∧ ∃ progress assignmentIndex old progress',
      (Scenario.withAssignments [7]).findProgress 7 10 = some progress
      ∧ findIndex (fun a => a.assignment == 4) progress.assignments = some assignmentIndex
      ∧ progress.assignments[assignmentIndex]? = some old
      ∧ (gradeAssignment (Scenario.withAssignments [7]) (Scenario.env 9)
          { user := 99, role := "instructor", courseId := 10, assignmentId := 4, userId := 7,
            grade := some 90, feedback := some "ok" }).1.findProgress 7 10 = some progress'
      ∧ progress'.overallProgress = progress.overallProgress :=
  ⟨by decide, by decide, by
    obtain ⟨progress, assignmentIndex, old, progress', h1, h2, h3, h4, -, -, -, -, h9, -⟩ :=
      gradeAssignment_frame (Scenario.withAssignments [7]) (Scenario.env 9)
        { user := 99, role := "instructor", courseId := 10, assignmentId := 4, userId := 7,
          grade := some 90, feedback := some "ok" } (by decide)
    exact ⟨progress, assignmentIndex, old, progress', h1, h2, h3, h4, h9⟩⟩

/-- C25: on an existing course, a `gradeAssignment` call whose caller is neither the course's
instructor nor of role admin (an instructor of another course included) is answered 401 and
leaves the database as it was; through the route, a caller whose role is neither instructor nor
admin is answered 403 and the database is left as it was; so whenever the call changes the
database, the caller is the course's instructor or an admin. -/
theorem gradeAssignment_gate (db : Db) (env : Env) (req : GradeRequest) (course : Course)
    (hc : db.findCourse req.courseId = some course) :
    (course.instructor ≠ req.user → req.role ≠ "admin" →
      gradeAssignment db env req = (db, Response.unauthorized req.user)
      ∧ (gradeAssignmentRoute db env req).1 = db
      ∧ ((gradeAssignmentRoute db env req).2.status = 401
          ∨ (gradeAssignmentRoute db env req).2.status = 403))
    ∧ (req.role ≠ "instructor" → req.role ≠ "admin" →
      (gradeAssignmentRoute db env req).1 = db
      ∧ (gradeAssignmentRoute db env req).2.status = 403)
    ∧ ((gradeAssignment db env req).1 ≠ db →
      course.instructor = req.user ∨ req.role = "admin") := by
  have hrej : course.instructor ≠ req.user → req.role ≠ "admin" →
      gradeAssignment db env req = (db, Response.unauthorized req.user) := by
    intro hi ha
    unfold gradeAssignment
    simp [hc, hi, ha]
  refine ⟨?_, ?_, ?_⟩
  · intro hi ha
    refine ⟨hrej hi ha, ?_, ?_⟩
    · unfold gradeAssignmentRoute
      split
      · rfl
      · rw [hrej hi ha]
    · unfold gradeAssignmentRoute authorize
      split
      · rename_i refusal href
        split at href
        · exact absurd href (by simp)
        · right
          simp only [Option.some.injEq] at href
          rw [← href]
      · left
        rw [hrej hi ha]
        rfl
  · intro hi ha
    unfold gradeAssignmentRoute authorize
    have hcontains : (["instructor", "admin"].contains req.role) = false := by
      simp [hi, ha]
    simp only [hcontains]
    exact ⟨rfl, rfl⟩
  · intro hchanged
    by_contra hcon
    simp only [not_or] at hcon
    apply hchanged
    rw [hrej hcon.1 hcon.2]

theorem gradeAssignment_gate_witness :
    (Scenario.withAssignments [7]).findCourse 10
      = some { _id := 10, instructor := 99, lessons := [1],
               quizzes := [{ _id := 3, passingScore := 70 }], assignments := [4, 5],
               enrollments := [7] }
    ∧ (gradeAssignment (Scenario.withAssignments [7]) (Scenario.env 9)
        { user := 98, role := "instructor", courseId := 10, assignmentId := 4, userId := 7,
          grade := some 90, feedback := some "ok" }).2.status = 401
    ∧ (gradeAssignment (Scenario.withAssignments [7]) (Scenario.env 9)
        { user := 98, role := "instructor", courseId := 10, assignmentId := 4, userId := 7,
          grade := some 90, feedback := some "ok" }).1 = Scenario.withAssignments [7]
    ∧ (gradeAssignmentRoute (Scenario.withAssignments [7]) (Scenario.env 9)
        { user := 7, role := "student", courseId := 10, assignmentId := 4, userId := 7,
          grade := some 100, feedback := none }).2.status = 403 :=
  ⟨by decide,
   congrArg (fun r => r.2.status)
     ((gradeAssignment_gate (Scenario.withAssignments [7]) (Scenario.env 9)
        { user := 98, role := "instructor", courseId := 10, assignmentId := 4, userId := 7,
          grade := some 90, feedback := some "ok" } _ rfl).1 (by decide) (by decide)).1,
   congrArg (fun r => r.1)
     ((gradeAssignment_gate (Scenario.withAssignments [7]) (Scenario.env 9)
        { user := 98, role := "instructor", courseId := 10, assignmentId := 4, userId := 7,
          grade := some 90, feedback := some "ok" } _ rfl).1 (by decide) (by decide)).1,
   ((gradeAssignment_gate (Scenario.withAssignments [7]) (Scenario.env 9)
        { user := 7, role := "student", courseId := 10, assignmentId := 4, userId := 7,
          grade := some 100, feedback := none } _ rfl).2.1 (by decide) (by decide)).2⟩

/-! ## Gates the mutating handlers do not have -/

/-- C21: learner `7` is not among the enrollments of course `10` (`getProgress` answers 403) but
has a record for it; `updateLessonProgress`, `submitQuiz` and `submitAssignment` each answer 200
and write the record: none of the three looks at `course.enrollments`. -/
theorem mutating_handlers_skip_enrollment :
    (getProgress (Scenario.withAssignments []) (Scenario.env 9)
        { user := 7, courseId := 10 }).2.status = 403
    ∧ (updateLessonProgress (Scenario.withAssignments []) (Scenario.env 9)
        { user := 7, courseId := 10, lessonId := 1, completed := some true,
          timeSpent := some 5 }).2.status = 200
    ∧ (updateLessonProgress (Scenario.withAssignments []) (Scenario.env 9)
        { user := 7, courseId := 10, lessonId := 1, completed := some true,
          timeSpent := some 5 }).1.lessonEntry 7 10 1
      = some { lesson := 1, completed := true, completedAt := some 9, timeSpent := 5 }
    ∧ (submitQuiz (Scenario.withAssignments []) (Scenario.env 9)
        { user := 7, courseId := 10, quizId := 3, score := 80 }).2.status = 200
    ∧ (submitQuiz (Scenario.withAssignments []) (Scenario.env 9)
        { user := 7, courseId := 10, quizId := 3, score := 80 }).1.quizEntry 7 10 3
      = some { quiz := 3, completed := true, score := 80, attempts := 1,
               lastAttemptAt := some 9 }
    ∧ (submitAssignment (Scenario.withAssignments []) (Scenario.env 9)
        { user := 7, courseId := 10, assignmentId := 5, submissionUrl := some "v" }).2.status
      = 200
    ∧ (submitAssignment (Scenario.withAssignments []) (Scenario.env 9)
        { user := 7, courseId := 10, assignmentId := 5,
          submissionUrl := some "v" }).1.assignmentEntry 7 10 5
      = some { assignment := 5, submitted := true, submissionUrl := some "v", grade := none,
               feedback := none, submittedAt := some 9, gradedAt := none } := by
  decide

/-- C27, as stated, fails: scores 150 and -5 are accepted with status 200 and stored; the
attempt is counted and 150 marks the quiz completed. -/
theorem submitQuiz_accepts_out_of_range :
    (submitQuiz Scenario.db (Scenario.env 1)
        { user := 7, courseId := 10, quizId := 3, score := 150 }).2.status = 200
    ∧ (submitQuiz Scenario.db (Scenario.env 1)
        { user := 7, courseId := 10, quizId := 3, score := 150 }).1.quizEntry 7 10 3
      = some { quiz := 3, completed := true, score := 150, attempts := 1,
               lastAttemptAt := some 1 }
    ∧ (submitQuiz Scenario.db (Scenario.env 1)
        { user := 7, courseId := 10, quizId := 3, score := -5 }).2.status = 200
    ∧ (submitQuiz Scenario.db (Scenario.env 1)
        { user := 7, courseId := 10, quizId := 3, score := -5 }).1.quizEntry 7 10 3
      = some { quiz := 3, completed := false, score := -5, attempts := 1,
               lastAttemptAt := some 1 } := by
  decide

/-- C27, amended: a `submitQuiz` call on a known quiz entry of a quiz the course holds whose
score lies outside `[0, 100]` is answered 200 and handled like any other score: the score is
stored, `attempts` rises by one and `completed` is true when the score reaches `passingScore`
or was true before. -/
theorem submitQuiz_out_of_range (db : Db) (env : Env) (req : QuizRequest) (old : QuizProgress)
    (ps : Int) (h : db.quizEntry req.user req.courseId req.quizId = some old)
    (hps : db.passingScore req.courseId req.quizId = some ps)
    (_hout : req.score < 0 ∨ 100 < req.score) :
    (submitQuiz db env req).2.status = 200
    ∧ (submitQuiz db env req).1.quizEntry req.user req.courseId req.quizId
      = some { old with score := req.score, attempts := old.attempts + 1,
                        lastAttemptAt := some env.now,
                        completed := decide (ps ≤ req.score) || old.completed } := by
  obtain ⟨progress, quizIndex, hp, hi, -⟩ := quizEntry_some db _ _ _ old h
  constructor
  · rw [submitQuiz_eq db env req progress quizIndex ps hp hi hps]
    rfl
  · rw [submitQuiz_quizEntry db env req old ps h hps]
    simp only [QuizProgress.update, Option.some.injEq]
    by_cases hpass : ps ≤ req.score <;> simp [hpass]

theorem submitQuiz_out_of_range_witness :
    Scenario.db.quizEntry 7 10 3
      = some { quiz := 3, completed := false, score := 0, attempts := 0, lastAttemptAt := none }
    ∧ Scenario.db.passingScore 10 3 = some 70
    ∧ ((-5 : Int) < 0 ∨ (100 : Int) < -5)
    ∧ (submitQuiz Scenario.db (Scenario.env 1)
        { user := 7, courseId := 10, quizId := 3, score := -5 }).2.status = 200 :=
  ⟨by decide, by decide, by decide,
   (submitQuiz_out_of_range Scenario.db (Scenario.env 1)
      { user := 7, courseId := 10, quizId := 3, score := -5 }
      { quiz := 3, completed := false, score := 0, attempts := 0, lastAttemptAt := none } 70
      (by decide) (by decide) (by decide)).1⟩

set_option maxRecDepth 20000 in
/-- C29: in a record of 199 lessons and one assignment, 198 lessons are completed and the
assignment is not submitted; `updateLessonProgress` completes the last lesson, 199 of 200 items
give `Math.round(99.5) = 100`, every lesson (and, vacuously, every quiz) is completed, and a
certificate is issued although the assignment entry is still not submitted. So
`overallProgress = 100` with `completedItems = 199 < 200 = totalItems`. -/
theorem certificate_with_unsubmitted_assignment :
    ((updateLessonProgress (Scenario.lessonsAndAssignment 199 198) (Scenario.env 1)
        { user := 7, courseId := 10, lessonId := 199, completed := some true,
          timeSpent := none }).1.certificatesFor 7 10).length = 1
    ∧ ((updateLessonProgress (Scenario.lessonsAndAssignment 199 198) (Scenario.env 1)
        { user := 7, courseId := 10, lessonId := 199, completed := some true,
          timeSpent := none }).1.findProgress 7 10).map
        (fun p => (p.completedItems, p.totalItems, p.overallProgress,
          p.assignments.map (fun a => a.submitted)))
      = some (199, 200, 100, [false])
    ∧ (Scenario.lessonsAndAssignment 199 198).certificates = [] := by
  decide

/-! ## The certificate id -/

theorem hexDigit_nibble :
    ∀ k : Fin 16, (hexDigit k.val).toUpper ∈ "0123456789ABCDEF".toList
      ∧ hexValue (hexDigit k.val).toUpper = k.val := by
  decide

theorem hexDigit_upper (n : Nat) :
    (hexDigit n).toUpper ∈ "0123456789ABCDEF".toList
      ∧ hexValue (hexDigit n).toUpper = n % 16 := by
  have h := hexDigit_nibble ⟨n % 16, Nat.mod_lt _ (by decide)⟩
  have hmod : hexDigit (n % 16) = hexDigit n := by
    unfold hexDigit
    rw [Nat.mod_mod]
  simp only [hmod] at h
  exact h

theorem upperHex_length :
    ∀ bytes : List (Fin 256),
      ((bytes.flatMap (fun b => [hexDigit (b.val / 16), hexDigit (b.val % 16)])).map
        Char.toUpper).length = 2 * bytes.length := by
  intro bytes
  induction bytes with
  | nil => rfl
  | cons b rest ih =>
    simp only [List.flatMap_cons, List.map_append, List.length_append, List.length_cons] at ih ⊢
    simp only [List.map_cons, List.map_nil, List.length_cons, List.length_nil]
    omega

theorem upperHex_alphabet :
    ∀ bytes : List (Fin 256),
      ∀ ch ∈ (bytes.flatMap (fun b => [hexDigit (b.val / 16), hexDigit (b.val % 16)])).map
        Char.toUpper, ch ∈ "0123456789ABCDEF".toList := by
  intro bytes ch hch
  obtain ⟨c, hc, rfl⟩ := List.mem_map.1 hch
  obtain ⟨b, -, hb⟩ := List.mem_flatMap.1 hc
  simp only [List.mem_cons, List.mem_singleton, List.not_mem_nil, or_false] at hb
  rcases hb with rfl | rfl
  · exact (hexDigit_upper _).1
  · exact (hexDigit_upper _).1

theorem decodeHex_upperHex :
    ∀ bytes : List (Fin 256),
      decodeHex ((bytes.flatMap (fun b => [hexDigit (b.val / 16), hexDigit (b.val % 16)])).map
        Char.toUpper) = bytes.map (fun b => b.val) := by
  intro bytes
  induction bytes with
  | nil => rfl
  | cons b rest ih =>
    have hstep :
        ((b :: rest).flatMap (fun b => [hexDigit (b.val / 16), hexDigit (b.val % 16)])).map
          Char.toUpper
          = (hexDigit (b.val / 16)).toUpper :: (hexDigit (b.val % 16)).toUpper ::
            (rest.flatMap (fun b => [hexDigit (b.val / 16), hexDigit (b.val % 16)])).map
              Char.toUpper := by
      rw [List.flatMap_cons, List.map_append]
      rfl
    rw [hstep, decodeHex, ih, (hexDigit_upper _).2, (hexDigit_upper _).2, List.map_cons]
    have hb := b.isLt
    have : 16 * (b.val / 16 % 16) + b.val % 16 % 16 = b.val := by omega
    rw [this]

theorem preSave_generated (c : Certificate) (bytes : Fin 8 → Fin 256)
    (h : c.certificateId = "") :
    (c.preSave bytes).certificateId
      = "CERT-" ++ String.mk
          (((List.ofFn bytes).flatMap
            (fun b => [hexDigit (b.val / 16), hexDigit (b.val % 16)])).map Char.toUpper) := by
  unfold Certificate.preSave
  rw [if_pos h]
  rfl

/-- C26: when a certificate without `certificateId` is saved, the generated id is `CERT-`
followed by 16 characters each drawn from `0-9` and `A-F`, 21 characters in all, for every
choice of the eight random bytes; different byte strings give different ids; and a certificate
that has a `certificateId` is left as it is. -/
theorem certificateId_format (c : Certificate) (bytes : Fin 8 → Fin 256) :
    (c.certificateId = "" →
      ∃ suffix : List Char, (c.preSave bytes).certificateId = "CERT-" ++ String.mk suffix
        ∧ suffix.length = 16
        ∧ (∀ ch ∈ suffix, ch ∈ "0123456789ABCDEF".toList)
        ∧ (c.preSave bytes).certificateId.length = 21)
    ∧ (c.certificateId = "" → ∀ other : Fin 8 → Fin 256, bytes ≠ other →
      (c.preSave bytes).certificateId ≠ (c.preSave other).certificateId)
    ∧ (c.certificateId ≠ "" → c.preSave bytes = c) := by
  refine ⟨?_, ?_, ?_⟩
  · intro h
    have hlen := upperHex_length (List.ofFn bytes)
    rw [List.length_ofFn] at hlen
    refine ⟨_, preSave_generated c bytes h, hlen, upperHex_alphabet _, ?_⟩
    rw [preSave_generated c bytes h, String.length_append]
    simp only [String.length]
    rw [hlen]
    rfl
  · intro h other hne heq
    apply hne
    rw [preSave_generated c bytes h, preSave_generated c other h] at heq
    have hdata := congrArg String.data heq
    simp only [String.data_append] at hdata
    have hchars := List.append_cancel_left hdata
    have hdec := congrArg decodeHex hchars
    rw [decodeHex_upperHex, decodeHex_upperHex] at hdec
    have hlist : List.ofFn bytes = List.ofFn other :=
      (List.map_injective_iff.2 Fin.val_injective) hdec
    exact List.ofFn_injective hlist
  · intro h
    unfold Certificate.preSave
    rw [if_neg h]

theorem certificateId_format_witness :
    (Certificate.mk 1 7 10 "" 0 0).certificateId = ""
    ∧ ((Certificate.mk 1 7 10 "" 0 0).preSave (Scenario.env 250).randomBytes).certificateId
      = "CERT-FAFBFCFDFEFF0001"
    ∧ ((Certificate.mk 1 7 10 "" 0 0).preSave (Scenario.env 250).randomBytes).certificateId.length
      = 21
    ∧ (Certificate.mk 1 7 10 "CERT-00" 0 0).preSave (Scenario.env 250).randomBytes
      = Certificate.mk 1 7 10 "CERT-00" 0 0 := by
  refine ⟨rfl, by decide, ?_, ?_⟩
  · obtain ⟨suffix, -, -, -, hlen⟩ :=
      (certificateId_format (Certificate.mk 1 7 10 "" 0 0) (Scenario.env 250).randomBytes).1 rfl
    exact hlen
  · exact (certificateId_format (Certificate.mk 1 7 10 "CERT-00" 0 0)
      (Scenario.env 250).randomBytes).2.2 (by decide)

/-! ## Login lockout -/

theorem foldl_increment_loginAttempts :
    ∀ (times : List Timestamp) (user : User),
      (times.foldl User.incrementLoginAttempts user).loginAttempts
        = user.loginAttempts + times.length := by
  intro times
  induction times with
  | nil => intro user; rfl
  | cons t rest ih =>
    intro user
    simp only [List.foldl_cons, List.length_cons]
    rw [ih]
    simp only [User.incrementLoginAttempts]
    omega

theorem foldl_increment_lockUntil :
    ∀ (times : List Timestamp) (user : User),
      user.lockUntil = none → user.loginAttempts + times.length < 5 →
      (times.foldl User.incrementLoginAttempts user).lockUntil = none := by
  intro times
  induction times with
  | nil => intro user h _; exact h
  | cons t rest ih =>
    intro user h hlt
    simp only [List.foldl_cons]
    simp only [List.length_cons] at hlt
    apply ih
    · have hnot : ¬ user.loginAttempts + 1 ≥ 5 := by omega
      simp only [User.incrementLoginAttempts, hnot, if_false]
      exact h
    · simp only [User.incrementLoginAttempts]
      omega

theorem increment_locks (user : User) (now : Timestamp) (h : 4 ≤ user.loginAttempts) :
    (user.incrementLoginAttempts now).loginAttempts = user.loginAttempts + 1
    ∧ (user.incrementLoginAttempts now).lockUntil = some (now + 1800000)
    ∧ ∀ t, (user.incrementLoginAttempts now).isLocked t = true ↔ t < now + 1800000 := by
  have hge : user.loginAttempts + 1 ≥ 5 := by omega
  have hlock : (user.incrementLoginAttempts now).lockUntil = some (now + 1800000) := by
    simp only [User.incrementLoginAttempts, hge, if_true]
  refine ⟨rfl, hlock, ?_⟩
  intro t
  unfold User.isLocked
  rw [hlock]
  simp

theorem findUserByEmail_key (db : Db) (email : String) (user : User)
    (h : db.findUserByEmail email = some user) : user.email = email := by
  have := List.find?_some h
  simpa using this

theorem findUserByEmail_save (db : Db) (email : String) (user saved : User)
    (h : db.findUserByEmail email = some user) (he : saved.email = email) :
    (db.saveUserByEmail email saved).findUserByEmail email = some saved := by
  unfold Db.findUserByEmail Db.saveUserByEmail
  exact find?_replaceFirst _ saved (by simp [he]) _ user h

theorem login_failed (compare : String → String → Bool) (db : Db) (env : Env)
    (req : LoginRequest) (user : User) (hu : db.findUserByEmail req.email = some user)
    (hl : user.isLocked env.now = false) (ha : user.isActive = true)
    (hc : compare req.password user.password = false) :
    login compare db env req
      = (db.saveUserByEmail req.email (user.incrementLoginAttempts env.now),
         AuthResponse.rejected "Invalid credentials") := by
  unfold login
  simp [hu, hl, ha, hc]

theorem login_succeeded (compare : String → String → Bool) (db : Db) (env : Env)
    (req : LoginRequest) (user : User) (hu : db.findUserByEmail req.email = some user)
    (hl : user.isLocked env.now = false) (ha : user.isActive = true)
    (hc : compare req.password user.password = true) :
    login compare db env req
      = (db.saveUserByEmail req.email (user.resetLoginAttempts env.now),
         { status := 200, success := true, message := none, userId := some user._id }) := by
  unfold login
  simp [hu, hl, ha, hc]

/-- C28: for an account with `loginAttempts = 0` and no lock, after `k` failed password checks
`loginAttempts` is `k`, and while `k < 5` the account is locked at no time; the fifth failure, at
time `now`, sets `lockUntil = now + 30 * 60 * 1000`, after which `isLocked` is true exactly at
the times before `lockUntil`; `resetLoginAttempts` sets `loginAttempts = 0` and clears
`lockUntil`. In `login`, for an account that is found, active and not locked, a wrong password
stores the account after `incrementLoginAttempts` and answers 401, and the right password stores
it after `resetLoginAttempts` and answers 200. -/
theorem login_lockout (user : User) (h0 : user.loginAttempts = 0) (hl : user.lockUntil = none)
    (times : List Timestamp) :
    (times.foldl User.incrementLoginAttempts user).loginAttempts = times.length
    ∧ (times.length < 5 → ∀ t, (times.foldl User.incrementLoginAttempts user).isLocked t = false)
    ∧ (times.length = 4 → ∀ now,
        ((times.foldl User.incrementLoginAttempts user).incrementLoginAttempts now).loginAttempts
          = 5
        ∧ ((times.foldl User.incrementLoginAttempts user).incrementLoginAttempts now).lockUntil
          = some (now + 30 * 60 * 1000)
        ∧ ∀ t, ((times.foldl User.incrementLoginAttempts user).incrementLoginAttempts
            now).isLocked t = true ↔ t < now + 30 * 60 * 1000)
    ∧ (∀ (u : User) (t : Timestamp),
        u.isLocked t = true ↔ ∃ lockUntil, u.lockUntil = some lockUntil ∧ t < lockUntil)
    ∧ (∀ (u : User) (now : Timestamp),
        (u.resetLoginAttempts now).loginAttempts = 0 ∧ (u.resetLoginAttempts now).lockUntil = none)
    ∧ ∀ (compare : String → String → Bool) (db : Db) (env : Env) (req : LoginRequest) (u : User),
        db.findUserByEmail req.email = some u → u.isLocked env.now = false →
        u.isActive = true →
        (compare req.password u.password = false →
          (login compare db env req).2.status = 401
          ∧ (login compare db env req).1.findUserByEmail req.email
              = some (u.incrementLoginAttempts env.now))
        ∧ (compare req.password u.password = true →
          (login compare db env req).2.status = 200
          ∧ (login compare db env req).1.findUserByEmail req.email
              = some (u.resetLoginAttempts env.now)) := by
  have hcount := foldl_increment_loginAttempts times user
  rw [h0, Nat.zero_add] at hcount
  refine ⟨hcount, ?_, ?_, ?_, ?_, ?_⟩
  · intro hlt t
    have hnone := foldl_increment_lockUntil times user hl (by omega)
    unfold User.isLocked
    rw [hnone]
  · intro h4 now
    have hge : 4 ≤ (times.foldl User.incrementLoginAttempts user).loginAttempts := by
      rw [hcount, h4]
    obtain ⟨h1, h2, h3⟩ := increment_locks _ now hge
    refine ⟨?_, h2, h3⟩
    rw [h1, hcount, h4]
  · intro u t
    unfold User.isLocked
    cases hlu : u.lockUntil with
    | none => simp
    | some lockUntil => simp
  · intro u now
    exact ⟨rfl, rfl⟩
  · intro compare db env req u hu hlocked hactive
    have hemail := findUserByEmail_key db req.email u hu
    constructor
    · intro hc
      rw [login_failed compare db env req u hu hlocked hactive hc]
      exact ⟨rfl, findUserByEmail_save db req.email u _ hu hemail⟩
    · intro hc
      rw [login_succeeded compare db env req u hu hlocked hactive hc]
      exact ⟨rfl, findUserByEmail_save db req.email u _ hu hemail⟩

theorem login_lockout_witness :
    (User.mk 7 [] [] "learner@lms.test" "hash" "student" true none 0 none).loginAttempts = 0
    ∧ (User.mk 7 [] [] "learner@lms.test" "hash" "student" true none 0 none).lockUntil = none
    ∧ ([10, 20, 30, 40].foldl User.incrementLoginAttempts
        (User.mk 7 [] [] "learner@lms.test" "hash" "student" true none 0 none)).loginAttempts = 4
    ∧ (([10, 20, 30, 40].foldl User.incrementLoginAttempts
        (User.mk 7 [] [] "learner@lms.test" "hash" "student" true none 0 none)
        ).incrementLoginAttempts 50).lockUntil = some 1800050
    ∧ (login Scenario.compare (Scenario.account 4 none) (Scenario.env 50)
        { email := "learner@lms.test", password := "bad" }).1
      = Scenario.account 5 (some 1800050)
    ∧ (login Scenario.compare (Scenario.account 4 none) (Scenario.env 50)
        { email := "learner@lms.test", password := "pw" }).2.status = 200 :=
  ⟨rfl, rfl,
   (login_lockout (User.mk 7 [] [] "learner@lms.test" "hash" "student" true none 0 none) rfl rfl
      [10, 20, 30, 40]).1,
   ((login_lockout (User.mk 7 [] [] "learner@lms.test" "hash" "student" true none 0 none) rfl
      rfl [10, 20, 30, 40]).2.2.1 rfl 50).2.1,
   by decide, by decide⟩

/-- C30: while the account found for the e-mail is locked at the time of the call, `login` is
answered 401 for every password and every outcome of the password test, and leaves the database
as it was; and for an account with `loginAttempts >= 4` that is active and not locked at the
time of the call (its earlier lock, if any, has expired), one `login` with a wrong password
stores `loginAttempts + 1` and `lockUntil = now + 30 * 60 * 1000`, so the account is locked at
every time before that. -/
theorem login_while_locked (compare : String → String → Bool) (db : Db) (env : Env)
    (email : String) (user : User) (hu : db.findUserByEmail email = some user) :
    (user.isLocked env.now = true → ∀ password : String,
      login compare db env { email := email, password := password }
        = (db, AuthResponse.rejected "Account is locked. Please try again later."))
    ∧ (4 ≤ user.loginAttempts → user.isLocked env.now = false → user.isActive = true →
      ∀ password : String, compare password user.password = false →
      ∃ stored,
        (login compare db env { email := email, password := password }).1.findUserByEmail email
          = some stored
        ∧ stored.loginAttempts = user.loginAttempts + 1
        ∧ stored.lockUntil = some (env.now + 30 * 60 * 1000)
        ∧ ∀ t, stored.isLocked t = true ↔ t < env.now + 30 * 60 * 1000) := by
  constructor
  · intro hlocked password
    unfold login
    simp [hu, hlocked]
  · intro h4 hlocked hactive password hc
    have hemail := findUserByEmail_key db email user hu
    rw [login_failed compare db env { email := email, password := password } user hu hlocked
      hactive hc]
    exact ⟨_, findUserByEmail_save db email user _ hu hemail, increment_locks user env.now h4⟩

theorem login_while_locked_witness :
    (Scenario.account 5 (some 1800050)).findUserByEmail "learner@lms.test"
      = some (User.mk 7 [] [] "learner@lms.test" "hash" "student" true none 5 (some 1800050))
    ∧ login Scenario.compare (Scenario.account 5 (some 1800050)) (Scenario.env 60)
        { email := "learner@lms.test", password := "pw" }
      = (Scenario.account 5 (some 1800050),
         AuthResponse.rejected "Account is locked. Please try again later.")
    ∧ (login Scenario.compare (Scenario.account 5 (some 1800050)) (Scenario.env 1800050)
        { email := "learner@lms.test", password := "bad" }).1
      = Scenario.account 6 (some 3600050) :=
  ⟨by decide,
   (login_while_locked Scenario.compare (Scenario.account 5 (some 1800050)) (Scenario.env 60)
      "learner@lms.test" _ rfl).1 (by decide) "pw",
   by decide⟩

end LMS
